import Mathlib

/-!
# SIC/XE two-pass assembler: shallow embedding and verification

This file embeds the core of the SIC/XE assembler (lexer helpers, Pass 1,
Pass 2, object-program generator, memory loader) as executable Lean
definitions, translated function-by-function from the TypeScript source
(`lexer.ts`, `optab.ts`, `sicxePass1.ts`, `sicxePass2.ts`,
`objectProgram.ts`, `memoryLoader.ts`, `parser.ts`), and proves or refutes
the specification's claims about it.

Modelling conventions:
* JavaScript numbers are modelled as `Int` (or `Nat` where the source value
  is provably a bit pattern); text-record byte counts, which the source
  accumulates as possibly fractional JS numbers (`length / 2`), are `ℚ`.
* JavaScript strings are Lean `String`s; all string operations are defined
  on the underlying character list so that everything reduces in the kernel.
* `x | undefined` / `x | null` become `Option`; JS truthiness tests on
  strings (`if (s)`) check both for `none` and for the empty string.
* UI-only fields (`breakdown`, `symbolTableSnapshot`, per-byte source-line
  back references, raw record strings that no claim mentions) are elided.
-/

namespace SicXe

/-! ## JavaScript-flavoured string and number primitives -/

/-- The apostrophe character, written via its code point. -/
def quoteChar : Char := Char.ofNat 39

/-- Characters of a string. -/
def strChars (s : String) : List Char := s.data

/-- String from characters. -/
def ofChars (l : List Char) : String := String.mk l

/-- JS `String.prototype.toUpperCase` restricted to ASCII (all inputs here
are ASCII). -/
def jsToUpper (s : String) : String := ofChars (s.data.map Char.toUpper)

/-- JS whitespace test used by `trim` (ASCII portion). -/
def jsIsSpace (c : Char) : Bool := c = ' ' ∨ c = '\t' ∨ c = '\n' ∨ c = '\r'

/-- JS `String.prototype.trim`. -/
def jsTrim (s : String) : String :=
  ofChars (((s.data.dropWhile jsIsSpace).reverse.dropWhile jsIsSpace).reverse)

/-- JS `String.prototype.startsWith`. -/
def jsStartsWith (s pre : String) : Bool := pre.data.isPrefixOf s.data

/-- JS `String.prototype.endsWith`. -/
def jsEndsWith (s post : String) : Bool := post.data.reverse.isPrefixOf s.data.reverse

/-- JS `String.prototype.substring(k)` (drop the first `k` characters). -/
def jsDrop (s : String) (k : Nat) : String := ofChars (s.data.drop k)

/-- Drop the last `k` characters (JS `slice(0, -k)`). -/
def jsDropRight (s : String) (k : Nat) : String := ofChars (s.data.take (s.data.length - k))

/-- Take the first `k` characters (JS `substring(0, k)`). -/
def jsTake (s : String) (k : Nat) : String := ofChars (s.data.take k)

/-- JS `String.prototype.includes` for a single character. -/
def jsHasChar (s : String) (c : Char) : Bool := s.data.contains c

/-- JS `String.prototype.split(sep)` for a one-character separator. -/
def jsSplitAux (sep : Char) : List Char → List Char → List String
  | [], cur => [ofChars cur.reverse]
  | c :: rest, cur =>
    if c = sep then ofChars cur.reverse :: jsSplitAux sep rest []
    else jsSplitAux sep rest (c :: cur)

/-- JS `String.prototype.split(sep)` (never returns an empty list). -/
def jsSplit (s : String) (sep : Char) : List String := jsSplitAux sep s.data []

/-- `String.prototype.padStart(n, c)`. -/
def padStart (s : String) (n : Nat) (c : Char) : String :=
  ofChars (List.replicate (n - s.data.length) c) ++ s

/-- `String.prototype.padEnd(n, c)`. -/
def padEnd (s : String) (n : Nat) (c : Char) : String :=
  s ++ ofChars (List.replicate (n - s.data.length) c)

/-- Hexadecimal digit test (regex `[0-9A-Fa-f]`). -/
def isHexDigit (c : Char) : Bool :=
  c.isDigit ∨ ('A' ≤ c ∧ c ≤ 'F') ∨ ('a' ≤ c ∧ c ≤ 'f')

/-- Value of a hexadecimal digit (non-digits map to 0; they never reach this
function on validated input). -/
def hexVal (c : Char) : Nat :=
  if c.isDigit then c.toNat - '0'.toNat
  else if 'a' ≤ c ∧ c ≤ 'f' then c.toNat - 'a'.toNat + 10
  else if 'A' ≤ c ∧ c ≤ 'F' then c.toNat - 'A'.toNat + 10
  else 0

/-- `parseInt(s, 16)` on an all-hex-digit string. -/
def parseHexNat (s : String) : Nat := s.data.foldl (fun a c => 16 * a + hexVal c) 0

/-- Natural value of an all-decimal-digit string. -/
def parseDecNat (s : String) : Nat := s.data.foldl (fun a c => 10 * a + (c.toNat - '0'.toNat)) 0

/-- `parseInt(s, 10)` on a string matching `-?[0-9]+`. -/
def parseDecInt (s : String) : Int :=
  if jsStartsWith s "-" then -(parseDecNat (jsDrop s 1) : Int) else (parseDecNat s : Int)

/-- Uppercase hexadecimal digit character. -/
def hexDigitChar (n : Nat) : Char :=
  if n < 10 then Char.ofNat ('0'.toNat + n) else Char.ofNat ('A'.toNat + (n - 10))

/-- Digits of `n` in base 16 (fuelled structural recursion). -/
def natToHexAux : Nat → Nat → List Char
  | 0, _ => []
  | _ + 1, 0 => []
  | fuel + 1, n => natToHexAux fuel (n / 16) ++ [hexDigitChar (n % 16)]

/-- JS `n.toString(16)` for a non-negative number, already uppercased (every
use in the source applies `.toUpperCase()` right after). -/
def toHexUpper (n : Nat) : String := if n = 0 then "0" else ofChars (natToHexAux (n + 1) n)

/-- JS `v.toString(16).toUpperCase()` for a possibly negative integer
(negative values print as a minus sign followed by the magnitude). -/
def intToHexUpper (v : Int) : String :=
  if v < 0 then "-" ++ toHexUpper v.natAbs else toHexUpper v.toNat

/-- JS 32-bit `ToInt32` bit pattern of an integer, as a natural number.
Bitwise JS operators (`&`, `>>`) act on this pattern; all values that reach
them in this program are far inside the 32-bit range. -/
def js32 (v : Int) : Nat := (v % (2 ^ 32 : Int)).toNat

/-- JS `v & mask` for a low-bit mask `2^bits - 1`. -/
def jsAndPow2 (v : Int) (bits : Nat) : Int := v % (2 ^ bits : Int)

/-! ## Lexer helper predicates and numeric parsing (`lexer.ts`) -/

/-- Regex `^[0-9A-Fa-f]+$` (`isValidHexNumber`). -/
def isValidHexNumber (s : String) : Bool := s.data ≠ [] ∧ s.data.all isHexDigit

/-- Regex `^-?[0-9]+$` (`isValidDecimalNumber`). -/
def isValidDecimalNumber (s : String) : Bool :=
  let t := if jsStartsWith s "-" then jsDrop s 1 else s
  t.data ≠ [] ∧ t.data.all Char.isDigit

/-- Regex `^[A-Za-z][A-Za-z0-9_]{0,15}$` (`isValidLabel`). -/
def isValidLabel (s : String) : Bool :=
  match s.data with
  | [] => false
  | c :: rest => c.isAlpha ∧ rest.length ≤ 15 ∧ rest.all (fun d => d.isAlphanum ∨ d = '_')

/-- `parseNumericOperand`: tries `0x`-prefixed hex, then bare hex (as used
by START), then signed decimal.  Note the order: a bare digit string such
as `"100"` is parsed as *hexadecimal*. -/
def parseNumericOperand (operand : String) : Option Int :=
  if operand.data = [] then none
  else if jsStartsWith (jsToUpper operand) "0X" ∧ isValidHexNumber (jsDrop operand 2) then
    some (parseHexNat (jsDrop operand 2) : Int)
  else if isValidHexNumber operand then some (parseHexNat operand : Int)
  else if isValidDecimalNumber operand then some (parseDecInt operand)
  else none

/-- `extractByteConstant`: `C'…'` (≥1 non-quote chars) or `X'…'` (≥1 hex
digits); returns `(isChar, content)`. -/
def extractByteConstant (operand : String) : Option (Bool × String) :=
  if operand.data.length < 3 then none
  else
    match operand.data with
    | k :: q1 :: rest =>
      if q1 = quoteChar ∧ rest ≠ [] ∧ rest.getLast? = some quoteChar then
        let mid := rest.take (rest.length - 1)
        if (k = 'C' ∨ k = 'c') ∧ mid ≠ [] ∧ mid.all (· ≠ quoteChar) then
          some (true, ofChars mid)
        else if (k = 'X' ∨ k = 'x') ∧ mid ≠ [] ∧ mid.all isHexDigit then
          some (false, ofChars mid)
        else none
      else none
    | _ => none

/-- `calculateByteConstantSize` (bytes occupied by a BYTE constant).  For an
odd-length `X'…'` content — which the validator rejects — the JS division
`length / 2` is fractional; this model uses natural division and is only
applied to validator-accepted constants. -/
def calculateByteConstantSize (operand : String) : Nat :=
  match extractByteConstant operand with
  | none => 0
  | some (true, v) => v.data.length
  | some (false, v) => v.data.length / 2

/-! ## Static tables (`optab.ts`) -/

/-- An operation-table entry: opcode byte, base format, operand arity.
(The redundant `mnemonic` field of the source record is the lookup key.) -/
structure OpcodeEntry where
  opcode : Nat
  format : Nat
  operands : Nat
deriving DecidableEq, Repr

/-- The complete SIC/XE operation table `OPTAB`. -/
def OPTAB : List (String × OpcodeEntry) := [
  ("ADD", ⟨0x18, 3, 1⟩), ("ADDF", ⟨0x58, 3, 1⟩), ("SUB", ⟨0x1C, 3, 1⟩),
  ("SUBF", ⟨0x5C, 3, 1⟩), ("MUL", ⟨0x20, 3, 1⟩), ("MULF", ⟨0x60, 3, 1⟩),
  ("DIV", ⟨0x24, 3, 1⟩), ("DIVF", ⟨0x64, 3, 1⟩),
  ("AND", ⟨0x40, 3, 1⟩), ("OR", ⟨0x44, 3, 1⟩),
  ("COMP", ⟨0x28, 3, 1⟩), ("COMPF", ⟨0x88, 3, 1⟩),
  ("J", ⟨0x3C, 3, 1⟩), ("JEQ", ⟨0x30, 3, 1⟩), ("JGT", ⟨0x34, 3, 1⟩),
  ("JLT", ⟨0x38, 3, 1⟩), ("JSUB", ⟨0x48, 3, 1⟩), ("RSUB", ⟨0x4C, 3, 0⟩),
  ("LDA", ⟨0x00, 3, 1⟩), ("LDB", ⟨0x68, 3, 1⟩), ("LDCH", ⟨0x50, 3, 1⟩),
  ("LDF", ⟨0x70, 3, 1⟩), ("LDL", ⟨0x08, 3, 1⟩), ("LDS", ⟨0x6C, 3, 1⟩),
  ("LDT", ⟨0x74, 3, 1⟩), ("LDX", ⟨0x04, 3, 1⟩),
  ("STA", ⟨0x0C, 3, 1⟩), ("STB", ⟨0x78, 3, 1⟩), ("STCH", ⟨0x54, 3, 1⟩),
  ("STF", ⟨0x80, 3, 1⟩), ("STI", ⟨0xD4, 3, 1⟩), ("STL", ⟨0x14, 3, 1⟩),
  ("STS", ⟨0x7C, 3, 1⟩), ("STSW", ⟨0xE8, 3, 1⟩), ("STT", ⟨0x84, 3, 1⟩),
  ("STX", ⟨0x10, 3, 1⟩), ("TIX", ⟨0x2C, 3, 1⟩),
  ("RD", ⟨0xD8, 3, 1⟩), ("TD", ⟨0xE0, 3, 1⟩), ("WD", ⟨0xDC, 3, 1⟩),
  ("LPS", ⟨0xD0, 3, 1⟩), ("SSK", ⟨0xEC, 3, 1⟩),
  ("ADDR", ⟨0x90, 2, 2⟩), ("SUBR", ⟨0x94, 2, 2⟩), ("MULR", ⟨0x98, 2, 2⟩),
  ("DIVR", ⟨0x9C, 2, 2⟩), ("COMPR", ⟨0xA0, 2, 2⟩),
  ("SHIFTL", ⟨0xA4, 2, 2⟩), ("SHIFTR", ⟨0xA8, 2, 2⟩),
  ("RMO", ⟨0xAC, 2, 2⟩), ("CLEAR", ⟨0xB4, 2, 1⟩), ("TIXR", ⟨0xB8, 2, 1⟩),
  ("SVC", ⟨0xB0, 2, 1⟩),
  ("FIX", ⟨0xC4, 1, 0⟩), ("FLOAT", ⟨0xC0, 1, 0⟩), ("NORM", ⟨0xC8, 1, 0⟩),
  ("HIO", ⟨0xF4, 1, 0⟩), ("SIO", ⟨0xF0, 1, 0⟩), ("TIO", ⟨0xF8, 1, 0⟩)]

/-- The register table `REGISTERS`. -/
def REGISTERS : List (String × Nat) :=
  [("A", 0), ("X", 1), ("L", 2), ("B", 3), ("S", 4), ("T", 5), ("F", 6),
   ("PC", 8), ("SW", 9)]

/-- The directive set `DIRECTIVES`. -/
def DIRECTIVES : List String :=
  ["START", "END", "BYTE", "WORD", "RESB", "RESW", "BASE", "NOBASE",
   "EQU", "ORG", "LTORG", "USE", "CSECT", "EXTDEF", "EXTREF"]

/-- Strip one leading `+` (regex `replace(/^\+/, '')`). -/
def stripPlus (s : String) : String := if jsStartsWith s "+" then jsDrop s 1 else s

/-- `getOpcodeEntry`. -/
def getOpcodeEntry (mnemonic : String) : Option OpcodeEntry :=
  OPTAB.lookup (stripPlus (jsToUpper mnemonic))

/-- `isValidOpcode`. -/
def isValidOpcode (mnemonic : String) : Bool := (getOpcodeEntry mnemonic).isSome

/-- `isDirective`. -/
def isDirective (mnemonic : String) : Bool := DIRECTIVES.contains (jsToUpper mnemonic)

/-- `getRegisterCode`. -/
def getRegisterCode (register : String) : Option Nat := REGISTERS.lookup (jsToUpper register)

/-- `getInstructionFormat` (0 for directives and unknown mnemonics; a `+`
prefix turns base format 3 into 4). -/
def getInstructionFormat (mnemonic : String) : Nat :=
  let isExtended := jsStartsWith mnemonic "+"
  let cleanMnemonic := jsToUpper (stripPlus mnemonic)
  if isDirective cleanMnemonic then 0
  else
    match OPTAB.lookup cleanMnemonic with
    | none => 0
    | some entry => if isExtended ∧ entry.format = 3 then 4 else entry.format

/-! ## Data model (`types.ts`) -/

/-- A tokenized source line (lexer output; `rawLine` and `comment` elided). -/
structure TokenizedLine where
  lineNumber : Nat := 0
  label : Option String := none
  opcode : String := ""
  operand : Option String := none
  isEmpty : Bool := false
  isComment : Bool := false
  isExtended : Bool := false
  /-- The `addressingPrefix` field: `'#'` for immediate, `'@'` for indirect. -/
  addrSign : Option Char := none
  indexed : Bool := false
  /-- The `location` field assigned by Pass 1. -/
  location : Option Int := none
deriving DecidableEq, Repr

/-- JS truthiness of an optional string (`undefined` and `""` are falsy). -/
def strTruthy : Option String → Option String
  | none => none
  | some s => if s.data = [] then none else some s

/-- The symbol table: uppercased names to addresses, unique keys
(association list mirroring a JS object). -/
def SymbolTable := List (String × Int)
deriving DecidableEq, Repr

/-- Symbol-table lookup (`symbolTable[name]`). -/
def stLookup (st : SymbolTable) (name : String) : Option Int :=
  List.lookup name st

/-- Key-membership test (`name in symbolTable`). -/
def stHas (st : SymbolTable) (name : String) : Bool := (stLookup st name).isSome

/-- Insert-or-replace (`symbolTable[name] = value`). -/
def stInsert (st : SymbolTable) (name : String) (value : Int) : SymbolTable :=
  match st with
  | [] => [(name, value)]
  | (k, v) :: rest =>
    if k = name then (k, value) :: rest else (k, v) :: stInsert rest name value

/-- An assembler diagnostic; message text and phase details are elided,
only the line number and the severity (error vs warning) are kept. -/
structure AsmErr where
  lineNumber : Nat
  isError : Bool
deriving DecidableEq, Repr

/-- An intermediate-file entry (Pass 1 output; the symbol-table snapshot is
elided). -/
structure IntermediateEntry where
  line : TokenizedLine
  locctr : Option Int
  size : Nat
deriving DecidableEq, Repr

/-- Diagnostic constructors. -/
def errAt (n : Nat) : AsmErr := ⟨n, true⟩

/-- Warning-severity diagnostic. -/
def warnAt (n : Nat) : AsmErr := ⟨n, false⟩

/-- Intermediate-entry constructor. -/
def mkEntry (l : TokenizedLine) (loc : Option Int) (sz : Nat) : IntermediateEntry :=
  ⟨l, loc, sz⟩

/-- Pass 1 result. -/
structure Pass1Result where
  intermediateFile : List IntermediateEntry
  symbolTable : SymbolTable
  programName : String
  startAddress : Int
  programLength : Int
  errors : List AsmErr
  success : Bool
deriving DecidableEq, Repr

/-! ## Expression splitting shared by both evaluators -/

/-- The `+`/`-` splitting loop of the expression evaluators: returns the
non-blank trimmed terms and the operator characters, in order. -/
def splitExprGo : List Char → String → List String × List Char
  | [], cur =>
    ((if (jsTrim cur).data = [] then [] else [jsTrim cur]), [])
  | c :: rest, cur =>
    if c = '+' ∨ c = '-' then
      let (ts, ops) := splitExprGo rest ""
      ((if (jsTrim cur).data = [] then ts else jsTrim cur :: ts), c :: ops)
    else splitExprGo rest (cur.push c)

/-- Apply the collected `+`/`-` operators left to right
(`for j in 0..operators.length-1 while j+1 < values.length`). -/
def applyOps (vals : List Int) (ops : List Char) : Int :=
  match vals with
  | [] => 0
  | v :: rest =>
    (ops.zip rest).foldl (fun acc pr => if pr.1 = '+' then acc + pr.2 else acc - pr.2) v

/-! ## Pass 1 (`sicxePass1.ts`) -/

/-- Evaluate the terms of a Pass 1 expression: `*` is the current locctr,
then symbol lookup (uppercased), then numeric literal; any unresolvable
term fails the whole list. -/
def evalTokens1 : List String → SymbolTable → Int → Option (List Int)
  | [], _, _ => some []
  | t :: ts, st, loc =>
    let v? : Option Int :=
      if jsToUpper t = "*" then some loc
      else
        match stLookup st (jsToUpper t) with
        | some v => some v
        | none => parseNumericOperand t
    match v?, evalTokens1 ts st loc with
    | some v, some vs => some (v :: vs)
    | _, _ => none

/-- `evaluateExpression` (Pass 1): `*`, numeric literal, single symbol, or a
left-to-right `+`/`-` combination of such terms. -/
def evaluateExpression (expression : String) (st : SymbolTable) (currentLocctr : Int) :
    Option Int :=
  if (jsTrim expression).data = [] then none
  else
    let expr := jsTrim expression
    if expr = "*" then some currentLocctr
    else
      match parseNumericOperand expr with
      | some v => some v
      | none =>
        match stLookup st (jsToUpper expr) with
        | some v => some v
        | none =>
          let (tokens, ops) := splitExprGo expr.data ""
          if tokens.length = 1 ∧ ops = [] then none
          else
            match evalTokens1 tokens st currentLocctr with
            | none => none
            | some vals => if vals = [] then none else some (applyOps vals ops)

/-- `calculateDirectiveSize`: byte size of a directive, plus any diagnostics. -/
def calculateDirectiveSize (directive : String) (operand : Option String)
    (lineNumber : Nat) : Nat × List AsmErr :=
  if directive = "BYTE" then
    match strTruthy operand with
    | none => (0, [errAt lineNumber])
    | some op =>
      let byteSize := calculateByteConstantSize op
      (byteSize, if byteSize = 0 then [errAt lineNumber] else [])
  else if directive = "WORD" then (3, [])
  else if directive = "RESB" then
    match strTruthy operand with
    | none => (0, [errAt lineNumber])
    | some op =>
      if ¬ isValidDecimalNumber op then (0, [errAt lineNumber])
      else
        let n := parseDecInt op
        if n ≤ 0 then (0, [errAt lineNumber]) else (n.toNat, [])
  else if directive = "RESW" then
    match strTruthy operand with
    | none => (0, [errAt lineNumber])
    | some op =>
      if ¬ isValidDecimalNumber op then (0, [errAt lineNumber])
      else
        let n := parseDecInt op
        if n ≤ 0 then (0, [errAt lineNumber]) else (n.toNat * 3, [])
  else if directive ∈ ["START", "END", "BASE", "NOBASE", "LTORG", "EQU", "ORG",
      "USE", "CSECT", "EXTDEF", "EXTREF"] then (0, [])
  else (0, [warnAt lineNumber])

/-- `calculateInstructionSize`: byte size of an instruction or directive
line, plus any diagnostics. -/
def calculateInstructionSize (line : TokenizedLine) : Nat × List AsmErr :=
  let opcode := jsToUpper line.opcode
  let isExtended := line.isExtended ∨ jsStartsWith line.opcode "+"
  let cleanOpcode := stripPlus opcode
  if isDirective cleanOpcode then
    calculateDirectiveSize cleanOpcode line.operand line.lineNumber
  else if isValidOpcode cleanOpcode then
    (getInstructionFormat (if isExtended then "+" ++ cleanOpcode else cleanOpcode), [])
  else (0, [errAt line.lineNumber])

/-- A deferred (forward-referencing) EQU awaiting the fixed-point phase. -/
structure DeferredEqu where
  label : String
  operand : String
  locctr : Int
  lineNumber : Nat
deriving DecidableEq, Repr

/-- The running state of the Pass 1 line loop. -/
structure Pass1State where
  symbolTable : SymbolTable
  intermediate : List IntermediateEntry
  errors : List AsmErr
  deferred : List DeferredEqu
  locctr : Int
  startAddress : Int
  programName : String
  foundStart : Bool
  foundEnd : Bool
deriving DecidableEq, Repr

/-- One iteration of the Pass 1 line loop; the `Bool` is true when the loop
`break`s (END directive). -/
def pass1Step (s : Pass1State) (line : TokenizedLine) : Pass1State × Bool :=
  if line.isEmpty ∨ line.isComment then
    ({ s with intermediate := s.intermediate ++
        [mkEntry { line with location := none } none 0] }, false)
  else
    let opcode := jsToUpper line.opcode
    if opcode = "START" then
      let dupErrs : List AsmErr := if s.foundStart then [errAt line.lineNumber] else []
      let startOperand := match strTruthy line.operand with
        | none => "0"
        | some o => o
      let startAddress := (parseNumericOperand startOperand).getD 0
      let programName := match strTruthy line.label with
        | none => "PROG"
        | some l => l
      let st' := match strTruthy line.label with
        | none => s.symbolTable
        | some l => stInsert s.symbolTable (jsToUpper l) startAddress
      ({ s with
          foundStart := true,
          startAddress := startAddress,
          locctr := startAddress,
          programName := programName,
          symbolTable := st',
          errors := s.errors ++ dupErrs,
          intermediate := s.intermediate ++
            [mkEntry { line with location := some startAddress } (some startAddress) 0] }, false)
    else if opcode = "END" then
      ({ s with
          foundEnd := true,
          intermediate := s.intermediate ++
            [mkEntry { line with location := some s.locctr } (some s.locctr) 0] }, true)
    else
      let currentLocctr := s.locctr
      if opcode = "EQU" then
        let s' :=
          match strTruthy line.label with
          | none => { s with errors := s.errors ++ [errAt line.lineNumber] }
          | some lbl =>
            let label := jsToUpper lbl
            match strTruthy line.operand with
            | none => { s with errors := s.errors ++ [errAt line.lineNumber] }
            | some operand =>
              let value : Option Int :=
                if operand = "*" then some s.locctr
                else evaluateExpression operand s.symbolTable s.locctr
              match value with
              | some v =>
                if stHas s.symbolTable label then
                  { s with errors := s.errors ++ [errAt line.lineNumber] }
                else { s with symbolTable := stInsert s.symbolTable label v }
              | none =>
                { s with deferred := s.deferred ++
                    [(⟨label, operand, currentLocctr, line.lineNumber⟩ : DeferredEqu)] }
        ({ s' with intermediate := s'.intermediate ++
              [mkEntry { line with location := some currentLocctr } (some currentLocctr) 0] },
          false)
      else if opcode = "ORG" then
        let s' :=
          match strTruthy line.operand with
          | none => { s with errors := s.errors ++ [errAt line.lineNumber] }
          | some operand =>
            match evaluateExpression operand s.symbolTable s.locctr with
            | some v => { s with locctr := v }
            | none => { s with errors := s.errors ++ [errAt line.lineNumber] }
        ({ s' with intermediate := s'.intermediate ++
            [mkEntry { line with location := some s'.locctr } (some s'.locctr) 0] }, false)
      else
        let s1 :=
          match strTruthy line.label with
          | none => s
          | some lbl =>
            let label := jsToUpper lbl
            if stHas s.symbolTable label then
              { s with errors := s.errors ++ [errAt line.lineNumber] }
            else { s with symbolTable := stInsert s.symbolTable label s.locctr }
        let (size, sizeErrs) := calculateInstructionSize line
        ({ s1 with
            errors := s1.errors ++ sizeErrs,
            intermediate := s1.intermediate ++
              [mkEntry { line with location := some currentLocctr } (some currentLocctr) size],
            locctr := s1.locctr + size }, false)

/-- The Pass 1 line loop (`break` stops processing after END). -/
def pass1Loop : List TokenizedLine → Pass1State → Pass1State
  | [], s => s
  | l :: rest, s =>
    let (s', stop) := pass1Step s l
    if stop then s' else pass1Loop rest s'

/-- One pass over the deferred-EQU list (the source iterates from the last
entry to the first, removing resolved entries in place): returns the
remaining entries in their original order, the updated symbol table, the
diagnostics, and the number of entries resolved. -/
def resolveOnePass (defs : List DeferredEqu) (st : SymbolTable) :
    List DeferredEqu × SymbolTable × List AsmErr × Nat :=
  defs.reverse.foldl
    (fun acc d =>
      let (rem, st, errs, cnt) := acc
      match evaluateExpression d.operand st d.locctr with
      | some v =>
        if stHas st d.label then (rem, st, errs ++ [errAt d.lineNumber], cnt + 1)
        else (rem, stInsert st d.label v, errs, cnt + 1)
      | none => (d :: rem, st, errs, cnt))
    ([], st, [], 0)

/-- The deferred-EQU fixed point: repeat `resolveOnePass` until a pass
resolves nothing, capped at `deferred.length + 1` iterations. -/
def resolveLoop : Nat → List DeferredEqu → SymbolTable →
    List DeferredEqu × SymbolTable × List AsmErr
  | 0, defs, st => (defs, st, [])
  | fuel + 1, defs, st =>
    let (defs', st', errs, cnt) := resolveOnePass defs st
    if cnt = 0 then (defs', st', errs)
    else
      let (d2, s2, e2) := resolveLoop fuel defs' st'
      (d2, s2, errs ++ e2)

/-- `executePass1`. -/
def executePass1 (lines : List TokenizedLine) : Pass1Result :=
  let s0 : Pass1State := ⟨[], [], [], [], 0, 0, "PROG", false, false⟩
  let s := pass1Loop lines s0
  let (remaining, st, resolveErrs) :=
    resolveLoop (s.deferred.length + 1) s.deferred s.symbolTable
  let unresolvedErrs : List AsmErr := remaining.map (fun d => errAt d.lineNumber)
  let endWarn : List AsmErr := if s.foundEnd then [] else [warnAt lines.length]
  let errors := s.errors ++ resolveErrs ++ unresolvedErrs ++ endWarn
  { intermediateFile := s.intermediate
    symbolTable := st
    programName := s.programName
    startAddress := s.startAddress
    programLength := s.locctr - s.startAddress
    errors := errors
    success := ¬ errors.any (·.isError) }

/-! ## Pass 2 data model (`types.ts`, `sicxePass2.ts`) -/

/-- The six NIXBPE addressing-flag bits (stored as 0/1 numbers, as in the
source). -/
structure NixbpeFlags where
  n : Nat
  i : Nat
  x : Nat
  b : Nat
  p : Nat
  e : Nat
deriving DecidableEq, Repr

/-- Addressing mode of an operand. -/
inductive AddressingMode
  | simple
  | immediate
  | indirect
deriving DecidableEq, Repr

/-- Displacement mode of a Format 3/4 instruction. -/
inductive DisplacementMode
  | noDisp
  | pcRelative
  | baseRelative
  | direct
deriving DecidableEq, Repr

/-- A Pass 2 entry (the UI-only `breakdown` field is elided). -/
structure Pass2Entry where
  line : TokenizedLine
  format : Nat
  nixbpe : Option NixbpeFlags
  targetAddress : Option Int
  displacement : Option Int
  displacementMode : DisplacementMode
  addressingMode : Option AddressingMode
  objectCode : Option String
  needsModification : Bool
deriving DecidableEq, Repr

/-- Pass 2 result. -/
structure Pass2Result where
  entries : List Pass2Entry
  errors : List AsmErr
  success : Bool
  baseRegister : Option Int
deriving DecidableEq, Repr

/-- The all-null entry used for empty/comment lines, directives without
code, and error cases (`createErrorEntry` and the inline literals). -/
def createErrorEntry (line : TokenizedLine) : Pass2Entry :=
  { line := line
    format := 0
    nixbpe := none
    targetAddress := none
    displacement := none
    displacementMode := .noDisp
    addressingMode := none
    objectCode := none
    needsModification := false }

/-! ## Pass 2 helpers (`sicxePass2.ts`) -/

/-- Evaluate the terms of a Pass 2 operand expression (symbol lookup, then
numeric literal; no `*`). -/
def evalTokens2 : List String → SymbolTable → Option (List Int)
  | [], _ => some []
  | t :: ts, st =>
    let v? : Option Int :=
      match stLookup st t with
      | some v => some v
      | none => parseNumericOperand t
    match v?, evalTokens2 ts st with
    | some v, some vs => some (v :: vs)
    | _, _ => none

/-- `evaluateOperandExpression`: whole-operand symbol lookup, then numeric
literal, then a left-to-right `+`/`-` expression over symbols and numbers. -/
def evaluateOperandExpression (operand : String) (st : SymbolTable) : Option Int :=
  if (jsTrim operand).data = [] then none
  else
    let expr := jsToUpper (jsTrim operand)
    match stLookup st expr with
    | some v => some v
    | none =>
      match parseNumericOperand operand with
      | some v => some v
      | none =>
        let (tokens, ops) := splitExprGo expr.data ""
        if tokens.length = 1 ∧ ops = [] then none
        else
          match evalTokens2 tokens st with
          | none => none
          | some vals => if vals = [] then none else some (applyOps vals ops)

/-- Result of `calculateDisplacement`. -/
structure DispResult where
  displacement : Int
  b : Nat
  p : Nat
  mode : DisplacementMode
  error : Option String
deriving DecidableEq, Repr

/-- `calculateDisplacement`: PC-relative first (signed 12-bit window,
negative displacements stored in two's complement), then BASE-relative
(unsigned 12-bit window) when the base register is set, else an
out-of-range error. -/
def calculateDisplacement (targetAddress : Int) (pc : Int) (baseRegister : Option Int) :
    DispResult :=
  let pcDisp := targetAddress - pc
  if -2048 ≤ pcDisp ∧ pcDisp ≤ 2047 then
    { displacement := if pcDisp < 0 then jsAndPow2 (pcDisp + 4096) 12 else pcDisp
      b := 0, p := 1, mode := .pcRelative, error := none }
  else
    match baseRegister with
    | some base =>
      let baseDisp := targetAddress - base
      if 0 ≤ baseDisp ∧ baseDisp ≤ 4095 then
        { displacement := baseDisp, b := 1, p := 0, mode := .baseRelative, error := none }
      else
        { displacement := 0, b := 0, p := 0, mode := .noDisp,
          error := some "out of range" }
    | none =>
      { displacement := 0, b := 0, p := 0, mode := .noDisp,
        error := some "out of range" }

/-- Result of `resolveAddressing`. -/
structure ResolveResult where
  n : Nat
  i : Nat
  x : Nat
  addressingMode : AddressingMode
  targetAddress : Option Int
  error : Option String
deriving DecidableEq, Repr

/-- The `n`/`i` flags and mode chosen from the addressing prefix. -/
def addrFlagsOf (sign : Option Char) : Nat × Nat × AddressingMode :=
  match sign with
  | some c =>
    if c = '#' then (0, 1, .immediate)
    else if c = '@' then (1, 0, .indirect)
    else (1, 1, .simple)
  | none => (1, 1, .simple)

/-- `resolveAddressing`: flags from the prefix, `x` from the indexed flag
(or a residual `,X` suffix), target address from the operand expression; an
unresolvable non-immediate operand is an error. -/
def resolveAddressing (line : TokenizedLine) (st : SymbolTable) : ResolveResult :=
  let (n, i, addressingMode) := addrFlagsOf line.addrSign
  let x0 : Nat := if line.indexed then 1 else 0
  match strTruthy line.operand with
  | none =>
    { n := n, i := i, x := x0, addressingMode := addressingMode,
      targetAddress := none, error := none }
  | some op =>
    let clean1 := if jsStartsWith op "#" ∨ jsStartsWith op "@" then jsDrop op 1 else op
    let (clean2, x) :=
      if jsEndsWith (jsToUpper clean1) ",X" then (jsDropRight clean1 2, 1) else (clean1, x0)
    let targetAddress := evaluateOperandExpression clean2 st
    if targetAddress = none ∧ addressingMode ≠ .immediate then
      { n := n, i := i, x := x, addressingMode := addressingMode,
        targetAddress := none, error := some "Cannot resolve operand" }
    else
      { n := n, i := i, x := x, addressingMode := addressingMode,
        targetAddress := targetAddress, error := none }

/-- `buildFormat3ObjectCode`. -/
def buildFormat3ObjectCode (opcode : Nat) (f : NixbpeFlags) (displacement : Int) : String :=
  let byte1 := (opcode &&& 0xFC) ||| (f.n <<< 1) ||| f.i
  let byte2 := (f.x <<< 7) ||| (f.b <<< 6) ||| (f.p <<< 5) ||| (f.e <<< 4) |||
    ((js32 displacement >>> 8) &&& 0x0F)
  let byte3 := js32 displacement &&& 0xFF
  padStart (toHexUpper byte1) 2 '0' ++ padStart (toHexUpper byte2) 2 '0' ++
    padStart (toHexUpper byte3) 2 '0'

/-- `buildFormat4ObjectCode`. -/
def buildFormat4ObjectCode (opcode : Nat) (f : NixbpeFlags) (address : Int) : String :=
  let byte1 := (opcode &&& 0xFC) ||| (f.n <<< 1) ||| f.i
  let byte2 := (f.x <<< 7) ||| (f.b <<< 6) ||| (f.p <<< 5) ||| (f.e <<< 4) |||
    ((js32 address >>> 16) &&& 0x0F)
  let byte3 := (js32 address >>> 8) &&& 0xFF
  let byte4 := js32 address &&& 0xFF
  padStart (toHexUpper byte1) 2 '0' ++ padStart (toHexUpper byte2) 2 '0' ++
    padStart (toHexUpper byte3) 2 '0' ++ padStart (toHexUpper byte4) 2 '0'

/-- `generateByteCode`: hex string for a BYTE constant (characters become
ASCII codes; hex content is uppercased). -/
def generateByteCode (operand : Option String) : Option String :=
  match strTruthy operand with
  | none => none
  | some op =>
    match extractByteConstant op with
    | none => none
    | some (true, v) =>
      some (v.data.foldl (fun acc ch => acc ++ padStart (toHexUpper ch.toNat) 2 '0') "")
    | some (false, v) => some (jsToUpper v)

/-- `generateWordCode`: 24-bit value of the operand expression (two's
complement for negatives); a plain symbol reference is flagged for
relocation. -/
def generateWordCode (operand : Option String) (st : SymbolTable) :
    Option String × Bool × Option String :=
  match strTruthy operand with
  | none => (none, false, some "WORD requires an operand")
  | some op =>
    match evaluateOperandExpression op st with
    | some exprValue =>
      let value : Int := if exprValue < 0 then (1 <<< 24 : Int) + exprValue else exprValue
      let upperOperand := jsToUpper op
      let isSimpleSymbol :=
        stHas st upperOperand ∧ ¬ jsHasChar op '+' ∧ ¬ jsHasChar op '-'
      (some (padStart (toHexUpper (js32 value &&& 0xFFFFFF)) 6 '0'), isSimpleSymbol, none)
    | none => (none, false, some "Cannot evaluate WORD operand")

/-- `handleDirective`: returns the entry, an optional base-register update
(`some (some v)` sets, `some none` clears, `none` leaves unchanged), and an
optional error. -/
def handleDirective (directive : String) (line : TokenizedLine) (st : SymbolTable) :
    Pass2Entry × Option (Option Int) × Option String :=
  let baseEntry := createErrorEntry line
  if directive = "BASE" then
    match strTruthy line.operand with
    | some o =>
      let operand := jsToUpper o
      let baseValue : Option Int :=
        if stHas st operand then stLookup st operand else parseNumericOperand operand
      match baseValue with
      | some v => (baseEntry, some (some v), none)
      | none => (baseEntry, none, some ("Undefined symbol for BASE: " ++ o))
    | none => (baseEntry, none, none)
  else if directive = "NOBASE" then (baseEntry, some none, none)
  else if directive = "BYTE" then
    ({ baseEntry with objectCode := generateByteCode line.operand }, none, none)
  else if directive = "WORD" then
    let (code, needsMod, err) := generateWordCode line.operand st
    ({ baseEntry with objectCode := code, needsModification := needsMod }, none, err)
  else (baseEntry, none, none)

/-- `generateFormat1`. -/
def generateFormat1 (line : TokenizedLine) (oe : OpcodeEntry) : Pass2Entry × Option String :=
  ({ createErrorEntry line with
      format := 1
      objectCode := some (padStart (toHexUpper oe.opcode) 2 '0') }, none)

/-- First Format 2 operand: register code, else decimal number, else 0. -/
def fmt2Operand1 (parts : List String) : Int :=
  match parts with
  | [] => 0
  | p0 :: _ =>
    if p0.data = [] then 0
    else
      match getRegisterCode p0 with
      | some r => (r : Int)
      | none => if isValidDecimalNumber p0 then parseDecInt p0 else 0

/-- Second Format 2 operand: register code, else decimal number minus one
(the SHIFT count encoding), else 0. -/
def fmt2Operand2 (parts : List String) : Int :=
  match parts with
  | _ :: p1 :: _ =>
    if p1.data = [] then 0
    else
      match getRegisterCode p1 with
      | some r => (r : Int)
      | none => if isValidDecimalNumber p1 then parseDecInt p1 - 1 else 0
  | _ => 0

/-- `generateFormat2`: `opcode` byte then one hex "nibble" per register
operand (larger or negative numeric operands print as-is, yielding more
than one character). -/
def generateFormat2 (line : TokenizedLine) (oe : OpcodeEntry) : Pass2Entry × Option String :=
  let operand := (strTruthy line.operand).getD ""
  let parts := (jsSplit operand ',').map (fun p => jsToUpper (jsTrim p))
  let r1 := fmt2Operand1 parts
  let r2 := fmt2Operand2 parts
  let objectCode :=
    padStart (toHexUpper oe.opcode) 2 '0' ++ intToHexUpper r1 ++ intToHexUpper r2
  ({ createErrorEntry line with format := 2, objectCode := some objectCode }, none)

/-- Assemble the successful Format 3 entry from resolved flags and a chosen
displacement. -/
def mkFormat3Entry (line : TokenizedLine) (oe : OpcodeEntry) (r : ResolveResult)
    (displacement : Int) (b p : Nat) (dm : DisplacementMode) : Pass2Entry :=
  let nixbpe : NixbpeFlags := ⟨r.n, r.i, r.x, b, p, 0⟩
  { line := line
    format := 3
    nixbpe := some nixbpe
    targetAddress := r.targetAddress
    displacement := some displacement
    displacementMode := dm
    addressingMode := some r.addressingMode
    objectCode := some (buildFormat3ObjectCode oe.opcode nixbpe displacement)
    needsModification := false }

/-- The Format 3 path through `calculateDisplacement` (shared by the
symbol-immediate and plain branches). -/
def format3ViaDisp (line : TokenizedLine) (oe : OpcodeEntry) (r : ResolveResult)
    (target pc : Int) (base : Option Int) : Pass2Entry × Option String :=
  let d := calculateDisplacement target pc base
  match d.error with
  | some e => (createErrorEntry line, some e)
  | none => (mkFormat3Entry line oe r d.displacement d.b d.p d.mode, none)

/-- `generateFormat3`. -/
def generateFormat3 (line : TokenizedLine) (oe : OpcodeEntry) (entry : IntermediateEntry)
    (st : SymbolTable) (baseRegister : Option Int) : Pass2Entry × Option String :=
  let r := resolveAddressing line st
  match r.error with
  | some e => (createErrorEntry line, some e)
  | none =>
    let currentLocation := entry.locctr.getD 0
    let pc := currentLocation + 3
    match r.targetAddress, strTruthy line.operand with
    | some target, some op =>
      if r.addressingMode = .immediate then
        let stripped := if jsStartsWith op "#" then jsDrop op 1 else op
        match parseNumericOperand stripped with
        | some immediateValue =>
          if ¬ stHas st (jsToUpper stripped) then
            (mkFormat3Entry line oe r (jsAndPow2 immediateValue 12) 0 0 .direct, none)
          else format3ViaDisp line oe r target pc baseRegister
        | none => format3ViaDisp line oe r target pc baseRegister
      else format3ViaDisp line oe r target pc baseRegister
    | some target, none => format3ViaDisp line oe r target pc baseRegister
    | none, _ => (mkFormat3Entry line oe r 0 0 0 .noDisp, none)

/-- `generateFormat4`. -/
def generateFormat4 (line : TokenizedLine) (oe : OpcodeEntry) (_entry : IntermediateEntry)
    (st : SymbolTable) : Pass2Entry × Option String :=
  let r := resolveAddressing line st
  match r.error with
  | some e => (createErrorEntry line, some e)
  | none =>
    let address0 := r.targetAddress.getD 0
    let (address, needsModification) :=
      match strTruthy line.operand with
      | some op =>
        if r.addressingMode = .immediate then
          let stripped := if jsStartsWith op "#" then jsDrop op 1 else op
          match parseNumericOperand stripped with
          | some immediateValue =>
            if ¬ stHas st (jsToUpper stripped) then (immediateValue, false)
            else (address0, true)
          | none => (address0, true)
        else if r.targetAddress.isSome then (address0, r.n = 1 ∧ r.i = 1)
        else (address0, false)
      | none =>
        if r.targetAddress.isSome then (address0, r.n = 1 ∧ r.i = 1)
        else (address0, false)
    let nixbpe : NixbpeFlags := ⟨r.n, r.i, r.x, 0, 0, 1⟩
    ({ line := line
       format := 4
       nixbpe := some nixbpe
       targetAddress := r.targetAddress
       displacement := some address
       displacementMode := .direct
       addressingMode := some r.addressingMode
       objectCode := some (buildFormat4ObjectCode oe.opcode nixbpe address)
       needsModification := needsModification }, none)

/-- `generateInstructionCode`: dispatch on the effective format. -/
def generateInstructionCode (line : TokenizedLine) (entry : IntermediateEntry)
    (st : SymbolTable) (baseRegister : Option Int) : Pass2Entry × Option String :=
  let isExtended := line.isExtended ∨ jsStartsWith line.opcode "+"
  let cleanOpcode := stripPlus (jsToUpper line.opcode)
  match getOpcodeEntry cleanOpcode with
  | none => (createErrorEntry line, some "Unknown opcode")
  | some opcodeEntry =>
    let format := if isExtended then 4 else opcodeEntry.format
    if format = 1 then generateFormat1 line opcodeEntry
    else if format = 2 then generateFormat2 line opcodeEntry
    else if format = 3 then generateFormat3 line opcodeEntry entry st baseRegister
    else if format = 4 then generateFormat4 line opcodeEntry entry st
    else (createErrorEntry line, some "Invalid format")

/-- The body of the Pass 2 loop for one intermediate entry: produces the
Pass 2 entry, the new base register, and an optional diagnostic. -/
def pass2Step (st : SymbolTable) (baseRegister : Option Int) (entry : IntermediateEntry) :
    Pass2Entry × Option Int × Option AsmErr :=
  let line := entry.line
  if line.isEmpty ∨ line.isComment then (createErrorEntry line, baseRegister, none)
  else
    let opcode := jsToUpper line.opcode
    if isDirective opcode then
      let (e, baseUpdate, err) := handleDirective opcode line st
      (e, (match baseUpdate with
           | some b => b
           | none => baseRegister),
        err.map (fun _ => errAt line.lineNumber))
    else
      let (e, err) := generateInstructionCode line entry st baseRegister
      (e, baseRegister, err.map (fun _ => errAt line.lineNumber))

/-- The Pass 2 loop over the intermediate file. -/
def pass2Loop : List IntermediateEntry → SymbolTable → Option Int →
    List Pass2Entry × List AsmErr × Option Int
  | [], _, baseRegister => ([], [], baseRegister)
  | e :: rest, st, baseRegister =>
    let (pe, base', err) := pass2Step st baseRegister e
    let (pes, errs, baseFinal) := pass2Loop rest st base'
    (pe :: pes, (match err with
                 | some x => [x]
                 | none => []) ++ errs, baseFinal)

/-- `executePass2`. -/
def executePass2 (pass1Result : Pass1Result) : Pass2Result :=
  let (entries, errors, baseRegister) :=
    pass2Loop pass1Result.intermediateFile pass1Result.symbolTable none
  { entries := entries
    errors := errors
    success := ¬ errors.any (·.isError)
    baseRegister := baseRegister }

/-- The call as seen by the caller: `executePass2` reads its input but
performs no assignment to it, so the caller's `Pass1Result` is returned
unchanged alongside the Pass 2 result. -/
def executePass2Call (pass1Result : Pass1Result) : Pass2Result × Pass1Result :=
  (executePass2 pass1Result, pass1Result)

/-! ## Object program generator (`objectProgram.ts`) -/

/-- A text record.  The source stores the byte count as a JS number — the
running sum of `objectCode.length / 2`, which can be fractional when an
object code has odd length.  To keep the model exact *and* computable it is
stored here doubled, in half-byte units: `length2` is the number of hex
characters, and the source's `length` field is `length2 / 2`
(see `byteCountQ`).  The raw string form is elided. -/
structure TextRecord where
  startAddress : Int
  length2 : Nat
  objectCode : String
deriving DecidableEq, Repr

/-- The byte count of a text record exactly as the source's `length` field
holds it (a possibly fractional JS number). -/
def byteCountQ (r : TextRecord) : ℚ := (r.length2 : ℚ) / 2

/-- A modification record, including its raw text form (where the program
name is truncated to six characters). -/
structure ModificationRecord where
  address : Int
  length : Nat
  symbol : String
  sign : Char
  raw : String
deriving DecidableEq, Repr

/-- Object program (header/end records kept as their structured fields). -/
structure ObjectProgram where
  programName : String
  startAddress : Int
  programLength : Int
  textRecords : List TextRecord
  modificationRecords : List ModificationRecord
  firstExecAddress : Int
deriving DecidableEq, Repr

/-- `finalizeTextRecord` (`byteCount2` is the byte count doubled). -/
def finalizeTextRecord (startAddress : Int) (objectCodes : List String) (byteCount2 : Nat) :
    TextRecord :=
  { startAddress := startAddress
    length2 := byteCount2
    objectCode := objectCodes.foldl (· ++ ·) "" }

/-- The skip test of the text-record loop (`if (!entry.objectCode)`). -/
def entryCode (e : Pass2Entry) : Option String := strTruthy e.objectCode

/-- The text-record packing loop.  The accumulator carries the open record:
start address, collected code strings, and the running byte count — doubled
to half-byte units so that the source's `objectCode.length / 2` summand is
the exact integer `objectCode.length`, and its 30-byte overflow test
`count + bytes > 30` is the equivalent `count2 + length > 60`. -/
def genTextLoop : List Pass2Entry → Option (Int × List String × Nat) → List TextRecord
  | [], none => []
  | [], some (s, codes, cnt) => [finalizeTextRecord s codes cnt]
  | e :: rest, acc =>
    match entryCode e with
    | none =>
      match acc with
      | some (s, codes, cnt) => finalizeTextRecord s codes cnt :: genTextLoop rest none
      | none => genTextLoop rest none
    | some code =>
      let objectCodeBytes2 := code.data.length
      let location := e.line.location.getD 0
      match acc with
      | none => genTextLoop rest (some (location, [code], objectCodeBytes2))
      | some (s, codes, cnt) =>
        if cnt + objectCodeBytes2 > 60 then
          finalizeTextRecord s codes cnt ::
            genTextLoop rest (some (location, [code], objectCodeBytes2))
        else genTextLoop rest (some (s, codes ++ [code], cnt + objectCodeBytes2))

/-- `generateTextRecords`. -/
def generateTextRecords (p2 : Pass2Result) : List TextRecord :=
  genTextLoop p2.entries none

/-- `generateModificationRecords`: one record per Pass 2 entry with
`needsModification` and `format = 4`, at `location + 1`, length 5
half-bytes, sign `+`, name truncated to 6 in the raw form. -/
def generateModificationRecords (p2 : Pass2Result) (programName : String) :
    List ModificationRecord :=
  p2.entries.filterMap (fun e =>
    if e.needsModification ∧ e.format = 4 then
      let location := e.line.location.getD 0
      let modAddress := location + 1
      some { address := modAddress
             length := 5
             symbol := programName
             sign := '+'
             raw := "M^" ++ padStart (intToHexUpper modAddress) 6 '0' ++ "^" ++
               padStart (toHexUpper 5) 2 '0' ++ "^+" ++ jsTake programName 6 }
    else none)

/-- `findFirstExecutableAddress`: symbol-table value of the first END
operand that resolves, else the start address. -/
def findFirstExecutableAddress (p1 : Pass1Result) (p2 : Pass2Result) : Int :=
  match p2.entries.findSome? (fun e =>
    if jsToUpper e.line.opcode = "END" then
      match strTruthy e.line.operand with
      | some op => stLookup p1.symbolTable (jsToUpper op)
      | none => none
    else none) with
  | some v => v
  | none => p1.startAddress

/-- `generateObjectProgram`. -/
def generateObjectProgram (p1 : Pass1Result) (p2 : Pass2Result) : ObjectProgram :=
  { programName := p1.programName
    startAddress := p1.startAddress
    programLength := p1.programLength
    textRecords := generateTextRecords p2
    modificationRecords := generateModificationRecords p2 p1.programName
    firstExecAddress := findFirstExecutableAddress p1 p2 }

/-- `hexStringToBytes`: two hex characters per byte (a trailing odd
character parses alone, as `substring` clamps). -/
def hexPairs : List Char → List Nat
  | [] => []
  | [a] => [hexVal a]
  | a :: b :: t => (16 * hexVal a + hexVal b) :: hexPairs t

/-- `hexStringToBytes`. -/
def hexStringToBytes (hex : String) : List Nat := hexPairs hex.data

/-! ## Memory loader (`memoryLoader.ts`) -/

/-- Per-byte metadata type.  Only the type tag is modelled; the source-line
back references (`sourceLineNumber`, `instruction`, `label`) that the
loader also records are elided, as is the `data`/`reserved`/`empty`
classification applied on reads outside the metadata map. -/
inductive MemType
  | code
  | modified
deriving DecidableEq, Repr

/-- The memory image: a byte store and a per-address metadata map. -/
structure Memory where
  bytes : Int → Nat
  programStart : Int
  programEnd : Int
  metadata : Int → Option MemType

/-- Write the byte run of one text record.  The source guards each write
with `address < memorySize`; writes at negative addresses are additionally
dropped by `Uint8Array` semantics (the metadata `Map`, however, accepts any
key, and the source sets it under the same `address < memorySize` guard). -/
def writeRun (memorySize : Int) : Int → List Nat → (Int → Nat) → (Int → Option MemType) →
    (Int → Nat) × (Int → Option MemType)
  | _, [], bytes, meta => (bytes, meta)
  | addr, b :: rest, bytes, meta =>
    if addr < memorySize then
      writeRun memorySize (addr + 1) rest
        (if 0 ≤ addr then fun a => if a = addr then b else bytes a else bytes)
        (fun a => if a = addr then some .code else meta a)
    else writeRun memorySize (addr + 1) rest bytes meta

/-- Load one text record into memory. -/
def loadTextRecord (memorySize : Int) (m : Memory) (r : TextRecord) : Memory :=
  let bs := hexStringToBytes r.objectCode
  let (bytes, meta) := writeRun memorySize r.startAddress bs m.bytes m.metadata
  { m with bytes := bytes, metadata := meta }

/-- Retag the byte span of one modification record (metadata only; bytes
are never written). -/
def applyModRun : Int → Nat → (Int → Option MemType) → (Int → Option MemType)
  | _, 0, meta => meta
  | addr, k + 1, meta =>
    let meta' := match meta addr with
      | some _ => fun a => if a = addr then some .modified else meta a
      | none => meta
    applyModRun (addr + 1) k meta'

/-- Apply one modification record: `⌈length/2⌉` bytes starting at its
address have their metadata type set to `modified` when present. -/
def applyModRecord (m : Memory) (r : ModificationRecord) : Memory :=
  let lengthBytes := (r.length + 1) / 2
  { m with metadata := applyModRun r.address lengthBytes m.metadata }

/-- `loadObjectProgram` (the byte-to-source-line index built by the source
feeds only the elided metadata fields). -/
def loadObjectProgram (op : ObjectProgram) (memorySize : Int) : Memory :=
  let m0 : Memory :=
    { bytes := fun _ => 0
      programStart := op.startAddress
      programEnd := op.startAddress + op.programLength
      metadata := fun _ => none }
  let afterText := op.textRecords.foldl (loadTextRecord memorySize) m0
  op.modificationRecords.foldl applyModRecord afterText

/-- Read `n` consecutive values of a byte store starting at `start`. -/
def readRun (f : Int → Nat) (start : Int) (n : Nat) : List Nat :=
  (List.range n).map (fun i : Nat => f (start + i))

/-- Read `n` consecutive bytes starting at `start` (the loader's `readByte`
surface, used to state the round-trip property). -/
def readBytes (m : Memory) (start : Int) (n : Nat) : List Nat :=
  readRun m.bytes start n

/-! ## Format 2 operand validation (`parser.ts`) -/

/-- `validateFormat2Operands`: the error messages produced by the validator
for a Format 2 operand list (empty means the operand is accepted). -/
def validateFormat2Operands (opcode : String) (operand : String) (expectedCount : Nat) :
    List String :=
  let parts := (jsSplit operand ',').map (fun p => jsToUpper (jsTrim p))
  if expectedCount = 1 then
    if parts.length ≠ 1 then ["operand count"]
    else
      match parts with
      | p0 :: _ =>
        if opcode = "SVC" then
          if ¬ isValidDecimalNumber p0 then ["SVC expects a decimal number operand"] else []
        else if (getRegisterCode p0).isNone then ["Invalid register"] else []
      | [] => []
  else if expectedCount = 2 then
    if parts.length ≠ 2 then ["operand count"]
    else
      match parts with
      | p0 :: p1 :: _ =>
        (if opcode = "SHIFTL" ∨ opcode = "SHIFTR" then
          (if (getRegisterCode p0).isNone then ["Invalid register"] else []) ++
          (if ¬ isValidDecimalNumber p1 then ["shift count"] else [])
        else
          (if (getRegisterCode p0).isNone then ["Invalid first register"] else []) ++
          (if (getRegisterCode p1).isNone then ["Invalid second register"] else []))
      | _ => []
  else []

/-! ## Verification vocabulary -/

/-- Sign extension of a 12-bit field (values ≥ 2048 represent negatives). -/
def signExtend12 (d : Int) : Int := if d < 2048 then d else d - 4096

/-- The NIXBPE consistency invariant for one Pass 2 entry: the mode/flag
correspondence, `b`/`p` mutual exclusion, and `e = 1` iff Format 4. -/
def NixbpeOk (e : Pass2Entry) : Prop :=
  ∀ f, e.nixbpe = some f →
    (e.addressingMode = some .immediate → f.n = 0 ∧ f.i = 1) ∧
    (e.addressingMode = some .indirect → f.n = 1 ∧ f.i = 0) ∧
    (e.addressingMode = some .simple → f.n = 1 ∧ f.i = 1) ∧
    ¬(f.b = 1 ∧ f.p = 1) ∧
    (f.e = 1 ↔ e.format = 4)

/-- Mode/flag correspondence for a resolved addressing record. -/
def ModeFlagsOk (r : ResolveResult) : Prop :=
  (r.addressingMode = .immediate → r.n = 0 ∧ r.i = 1) ∧
  (r.addressingMode = .indirect → r.n = 1 ∧ r.i = 0) ∧
  (r.addressingMode = .simple → r.n = 1 ∧ r.i = 1)

/-- A well-formed object-code string for text-record packing purposes: an
even number of hex characters, at least one byte and at most 30. -/
def goodCodeB (c : String) : Bool :=
  (c.data.length % 2 == 0) && decide (2 ≤ c.data.length) && decide (c.data.length ≤ 60)

/-- Entry-level form of `goodCodeB` (entries without code pass). -/
def goodEntryB (e : Pass2Entry) : Bool :=
  match entryCode e with
  | none => true
  | some c => goodCodeB c

/-- Location consistency of a Pass 2 entry list, in half-byte units (an
address `a` is represented as `2 * a`): each entry carrying object code
sits at or after the lower bound `lb`, and later code entries start at or
after its end.  This holds for straight-line programs (Pass 1's locctr only
moves forward past each entry's size) and can fail only through a
backwards `ORG`. -/
def locsOkB : Int → List Pass2Entry → Bool
  | _, [] => true
  | lb, e :: rest =>
    match entryCode e with
    | none => locsOkB lb rest
    | some c =>
      decide (lb ≤ 2 * e.line.location.getD 0) &&
        locsOkB (2 * e.line.location.getD 0 + (c.data.length : Int)) rest

/-- The per-record part of the text-record packing invariant, in half-byte
units: byte count between 1 and 30, payload exactly the stored count. -/
def recordOk (r : TextRecord) : Prop :=
  2 ≤ r.length2 ∧ r.length2 ≤ 60 ∧ r.objectCode.data.length = r.length2

/-- One text record ends at or before the next starts (half-byte units). -/
def recBefore (a b : TextRecord) : Prop :=
  2 * a.startAddress + (a.length2 : Int) ≤ 2 * b.startAddress

/-- Number of bytes a text record writes to memory. -/
def nTextBytes (r : TextRecord) : Nat := (hexStringToBytes r.objectCode).length

/-- Disjointness of the memory ranges of two text records. -/
def trDisjoint (a b : TextRecord) : Prop :=
  a.startAddress + nTextBytes a ≤ b.startAddress ∨
    b.startAddress + nTextBytes b ≤ a.startAddress

/-- A text record's range lies inside the memory image. -/
def trInBounds (memorySize : Int) (r : TextRecord) : Prop :=
  0 ≤ r.startAddress ∧ r.startAddress + nTextBytes r ≤ memorySize

instance (a b : TextRecord) : Decidable (trDisjoint a b) :=
  inferInstanceAs (Decidable
    (a.startAddress + nTextBytes a ≤ b.startAddress ∨
      b.startAddress + nTextBytes b ≤ a.startAddress))

instance (memorySize : Int) (r : TextRecord) : Decidable (trInBounds memorySize r) :=
  inferInstanceAs (Decidable
    (0 ≤ r.startAddress ∧ r.startAddress + nTextBytes r ≤ memorySize))

/-! ## Concrete programs used by witnesses and counterexamples -/

/-- The spec's Scenario A source, already tokenized. -/
def scenALines : List TokenizedLine := [
  { lineNumber := 1, label := some "SIMPLE", opcode := "START", operand := some "0" },
  { lineNumber := 2, opcode := "LDA", operand := some "FIVE" },
  { lineNumber := 3, opcode := "ADD", operand := some "THREE" },
  { lineNumber := 4, opcode := "STA", operand := some "RESULT" },
  { lineNumber := 5, opcode := "RSUB" },
  { lineNumber := 6, label := some "FIVE", opcode := "WORD", operand := some "5" },
  { lineNumber := 7, label := some "THREE", opcode := "WORD", operand := some "3" },
  { lineNumber := 8, label := some "RESULT", opcode := "RESW", operand := some "1" },
  { lineNumber := 9, opcode := "END", operand := some "SIMPLE" }]

/-- Pass 1 on Scenario A. -/
def scenAP1 : Pass1Result := executePass1 scenALines

/-- Pass 2 on Scenario A. -/
def scenAP2 : Pass2Result := executePass2 scenAP1

/-- Object program for Scenario A. -/
def scenAOP : ObjectProgram := generateObjectProgram scenAP1 scenAP2

/-- The second Pass 2 entry of Scenario A (the `LDA FIVE` instruction). -/
def scenAEntry1 : Pass2Entry := scenAP2.entries.getD 1 (createErrorEntry {})

/-- Scenario G: a forward-referencing EQU (`BUFEND EQU BUFFER+4096` before
`BUFFER RESB 4096`). -/
def deferDemoLines : List TokenizedLine := [
  { lineNumber := 1, label := some "P", opcode := "START", operand := some "0" },
  { lineNumber := 2, label := some "BUFEND", opcode := "EQU", operand := some "BUFFER+4096" },
  { lineNumber := 3, label := some "BUFFER", opcode := "RESB", operand := some "4096" },
  { lineNumber := 4, opcode := "END" }]

/-- A valid program whose `ORG 0` makes the generator emit two text records
with the same start address. -/
def overlapLines : List TokenizedLine := [
  { lineNumber := 1, label := some "X", opcode := "START", operand := some "0" },
  { lineNumber := 2, opcode := "BYTE", operand := some "X'FF'" },
  { lineNumber := 3, opcode := "ORG", operand := some "0" },
  { lineNumber := 4, opcode := "BYTE", operand := some "X'00'" },
  { lineNumber := 5, opcode := "END" }]

/-- Object program of the overlapping-records demo. -/
def overlapOP : ObjectProgram :=
  generateObjectProgram (executePass1 overlapLines) (executePass2 (executePass1 overlapLines))

/-- A valid program with a 31-character BYTE constant. -/
def longByteLines : List TokenizedLine := [
  { lineNumber := 1, label := some "P", opcode := "START", operand := some "0" },
  { lineNumber := 2, opcode := "BYTE",
    operand := some "C'AAAAAAAAAAAAAAAAAAAAAAAAAAAAAAA'" },
  { lineNumber := 3, opcode := "END" }]

/-- A valid program containing `SVC 16`. -/
def svcLines : List TokenizedLine := [
  { lineNumber := 1, label := some "P", opcode := "START", operand := some "0" },
  { lineNumber := 2, opcode := "SVC", operand := some "16" },
  { lineNumber := 3, opcode := "END" }]

/-- The `SVC 16` line on its own. -/
def svc16Line : TokenizedLine := { lineNumber := 2, opcode := "SVC", operand := some "16" }

/-- A program whose Format 4 instruction needs a modification record
(program name `COPY`, 4 characters). -/
def m4DemoLines : List TokenizedLine := [
  { lineNumber := 1, label := some "COPY", opcode := "START", operand := some "1000" },
  { lineNumber := 2, label := some "FIRST", opcode := "JSUB", operand := some "RDREC",
    isExtended := true },
  { lineNumber := 3, label := some "RDREC", opcode := "RSUB" },
  { lineNumber := 4, opcode := "END", operand := some "FIRST" }]

/-- Object program of the modification-record demo. -/
def m4DemoOP : ObjectProgram :=
  generateObjectProgram (executePass1 m4DemoLines) (executePass2 (executePass1 m4DemoLines))

/-- `LDA #100` as tokenized (the lexer strips the `#` into the prefix field). -/
def lda100Line : TokenizedLine :=
  { lineNumber := 1, opcode := "LDA", operand := some "100", addrSign := some '#' }

/-- `LDA #LENGTH` as tokenized. -/
def ldaLenLine : TokenizedLine :=
  { lineNumber := 1, opcode := "LDA", operand := some "LENGTH", addrSign := some '#' }

/-- The op-table entry for `LDA`. -/
def ldaOpEntry : OpcodeEntry := ⟨0x00, 3, 1⟩

/-- A blank tokenized line (dummy argument for witnesses). -/
def blankLine : TokenizedLine := {}

/-! # Theorems -/

/-- Unfolding lemma: `jsAndPow2 v 12` is reduction modulo 4096. -/
theorem jsAndPow2_twelve (v : Int) : jsAndPow2 v 12 = v % 4096 := by
  unfold jsAndPow2
  norm_num

/-- **C1.** Displacement selection for a Format-3 instruction with known
target `T` at location `L` (so PC = `L + 3`): PC-relative is tried first
and returns `(T − PC) mod 4096` with `b=0, p=1`, whose 12-bit sign
extension recovers `T − (L+3)`; otherwise BASE-relative applies when the
base register `B` is set and `0 ≤ T − B ≤ 4095`, returning `T − B` with
`b=1, p=0`; otherwise the selection reports an out-of-range error, and
`generateFormat3` then produces an error entry with no object code (on
success it records exactly the selected displacement and flags). -/
theorem c1_displacement_selection (T L : Int) (base : Option Int)
    (line : TokenizedLine) (oe : OpcodeEntry) (entry : IntermediateEntry)
    (st : SymbolTable) :
    ((-2048 ≤ T - (L + 3) ∧ T - (L + 3) ≤ 2047) →
      calculateDisplacement T (L + 3) base =
        ⟨(T - (L + 3)) % 4096, 0, 1, .pcRelative, none⟩ ∧
      signExtend12 ((T - (L + 3)) % 4096) = T - (L + 3)) ∧
    (¬(-2048 ≤ T - (L + 3) ∧ T - (L + 3) ≤ 2047) →
      ∀ B, base = some B → 0 ≤ T - B → T - B ≤ 4095 →
      calculateDisplacement T (L + 3) base = ⟨T - B, 1, 0, .baseRelative, none⟩) ∧
    (¬(-2048 ≤ T - (L + 3) ∧ T - (L + 3) ≤ 2047) →
      (∀ B, base = some B → ¬(0 ≤ T - B ∧ T - B ≤ 4095)) →
      (calculateDisplacement T (L + 3) base).error.isSome = true ∧
      (calculateDisplacement T (L + 3) base).displacement = 0) ∧
    ((resolveAddressing line st).error = none →
      (resolveAddressing line st).targetAddress = some T →
      (resolveAddressing line st).addressingMode ≠ .immediate →
      entry.locctr = some L →
      ((calculateDisplacement T (L + 3) base).error.isSome = true →
        (generateFormat3 line oe entry st base).1.objectCode = none ∧
        (generateFormat3 line oe entry st base).2.isSome = true) ∧
      ((calculateDisplacement T (L + 3) base).error = none →
        (generateFormat3 line oe entry st base).1 =
          mkFormat3Entry line oe (resolveAddressing line st)
            (calculateDisplacement T (L + 3) base).displacement
            (calculateDisplacement T (L + 3) base).b
            (calculateDisplacement T (L + 3) base).p
            (calculateDisplacement T (L + 3) base).mode)) := by
  refine ⟨?_, ?_, ?_, ?_⟩
  · intro hrange
    unfold calculateDisplacement
    rw [if_pos hrange]
    constructor
    · have hd : (if T - (L + 3) < 0 then jsAndPow2 (T - (L + 3) + 4096) 12
          else T - (L + 3)) = (T - (L + 3)) % 4096 := by
        split
        · rw [jsAndPow2_twelve]; omega
        · omega
      rw [hd]
    · unfold signExtend12
      split <;> omega
  · intro hrange B hB h0 h1
    unfold calculateDisplacement
    rw [if_neg hrange, hB]
    simp only
    rw [if_pos ⟨h0, h1⟩]
  · intro hrange hbase
    unfold calculateDisplacement
    rw [if_neg hrange]
    cases hb : base with
    | none => simp
    | some B =>
      have := hbase B hb
      simp only
      rw [if_neg this]
      simp
  · intro herr htgt hmode hloc
    have hred : generateFormat3 line oe entry st base =
        format3ViaDisp line oe (resolveAddressing line st) T (L + 3) base := by
      unfold generateFormat3
      simp only [herr, htgt, hloc, Option.getD_some]
      cases ho : strTruthy line.operand with
      | none => simp only [ho]
      | some op =>
        simp only [ho]
        rw [if_neg hmode]
    rw [hred]
    unfold format3ViaDisp
    constructor
    · intro hde
      rcases he : (calculateDisplacement T (L + 3) base).error with _ | e
      · rw [he] at hde; simp at hde
      · simp [he, createErrorEntry]
    · intro hde
      simp only [hde]

/-- Witness for C1: a PC-relative selection at `T = 10`, `L = 0`. -/
theorem c1_witness :
    calculateDisplacement 10 (0 + 3) none =
      ⟨(10 - (0 + 3)) % 4096, 0, 1, .pcRelative, none⟩ ∧
    signExtend12 ((10 - (0 + 3)) % 4096) = 10 - (0 + 3) :=
  (c1_displacement_selection 10 0 none blankLine ldaOpEntry ⟨blankLine, some 0, 3⟩ []).1
    (by decide)

/-- `addrFlagsOf` takes one of exactly three values. -/
theorem addrFlagsOf_cases (sign : Option Char) :
    addrFlagsOf sign = (0, 1, .immediate) ∨ addrFlagsOf sign = (1, 0, .indirect) ∨
    addrFlagsOf sign = (1, 1, .simple) := by
  unfold addrFlagsOf
  cases sign with
  | none => right; right; rfl
  | some c =>
    dsimp only
    split_ifs <;> simp

/-- `resolveAddressing` copies the flags chosen by `addrFlagsOf`. -/
theorem resolveAddressing_flags (line : TokenizedLine) (st : SymbolTable) :
    (resolveAddressing line st).n = (addrFlagsOf line.addrSign).1 ∧
    (resolveAddressing line st).i = (addrFlagsOf line.addrSign).2.1 ∧
    (resolveAddressing line st).addressingMode = (addrFlagsOf line.addrSign).2.2 := by
  rcases h : addrFlagsOf line.addrSign with ⟨n, i, m⟩
  unfold resolveAddressing
  rw [h]
  cases strTruthy line.operand with
  | none => simp
  | some op =>
    simp only
    repeat' split
    all_goals exact ⟨rfl, rfl, rfl⟩

/-- The three possible flag/mode combinations of a resolved operand. -/
theorem resolveAddressing_nim (line : TokenizedLine) (st : SymbolTable) :
    ((resolveAddressing line st).n = 0 ∧ (resolveAddressing line st).i = 1 ∧
      (resolveAddressing line st).addressingMode = .immediate) ∨
    ((resolveAddressing line st).n = 1 ∧ (resolveAddressing line st).i = 0 ∧
      (resolveAddressing line st).addressingMode = .indirect) ∨
    ((resolveAddressing line st).n = 1 ∧ (resolveAddressing line st).i = 1 ∧
      (resolveAddressing line st).addressingMode = .simple) := by
  obtain ⟨hn, hi, hm⟩ := resolveAddressing_flags line st
  rcases addrFlagsOf_cases line.addrSign with h | h | h <;> rw [h] at hn hi hm
  · exact Or.inl ⟨hn, hi, hm⟩
  · exact Or.inr (Or.inl ⟨hn, hi, hm⟩)
  · exact Or.inr (Or.inr ⟨hn, hi, hm⟩)

/-- `resolveAddressing` output satisfies the mode/flag correspondence. -/
theorem modeFlagsOk_resolve (line : TokenizedLine) (st : SymbolTable) :
    ModeFlagsOk (resolveAddressing line st) := by
  rcases resolveAddressing_nim line st with ⟨hn, hi, hm⟩ | ⟨hn, hi, hm⟩ | ⟨hn, hi, hm⟩ <;>
    refine ⟨fun hx => ?_, fun hx => ?_, fun hx => ?_⟩ <;>
    first
      | exact ⟨hn, hi⟩
      | (rw [hm] at hx; exact absurd hx (by decide))

/-- `calculateDisplacement` never sets `b` and `p` together. -/
theorem calculateDisplacement_bp (T pc : Int) (base : Option Int) :
    ((calculateDisplacement T pc base).b = 0 ∧ (calculateDisplacement T pc base).p = 1) ∨
    ((calculateDisplacement T pc base).b = 1 ∧ (calculateDisplacement T pc base).p = 0) ∨
    ((calculateDisplacement T pc base).b = 0 ∧ (calculateDisplacement T pc base).p = 0) := by
  unfold calculateDisplacement
  cases base <;> (dsimp only; split_ifs <;> simp)

/-- Negation form of `calculateDisplacement_bp`. -/
theorem calcDisp_not_bp (T pc : Int) (base : Option Int) :
    ¬((calculateDisplacement T pc base).b = 1 ∧ (calculateDisplacement T pc base).p = 1) := by
  rcases calculateDisplacement_bp T pc base with ⟨h1, h2⟩ | ⟨h1, h2⟩ | ⟨h1, h2⟩ <;> omega

/-- Entries without flags satisfy the invariant vacuously. -/
theorem nixbpeOk_none (e : Pass2Entry) (h : e.nixbpe = none) : NixbpeOk e := by
  intro f hf
  rw [h] at hf
  cases hf

/-- A `mkFormat3Entry` result satisfies the NIXBPE invariant when its
resolve record is consistent and its `b`/`p` bits are not both set. -/
theorem mk3_nixbpeOk (line : TokenizedLine) (oe : OpcodeEntry) (r : ResolveResult)
    (d : Int) (b p : Nat) (dm : DisplacementMode) (hr : ModeFlagsOk r)
    (hbp : ¬(b = 1 ∧ p = 1)) : NixbpeOk (mkFormat3Entry line oe r d b p dm) := by
  intro f hf
  have hfe : (⟨r.n, r.i, r.x, b, p, 0⟩ : NixbpeFlags) = f := by
    have h0 : (mkFormat3Entry line oe r d b p dm).nixbpe =
        some ⟨r.n, r.i, r.x, b, p, 0⟩ := rfl
    rw [h0] at hf
    exact Option.some_inj.mp hf
  subst hfe
  have hmode : (mkFormat3Entry line oe r d b p dm).addressingMode =
      some r.addressingMode := rfl
  have hfmt : (mkFormat3Entry line oe r d b p dm).format = 3 := rfl
  refine ⟨?_, ?_, ?_, hbp, ?_⟩
  · intro h; rw [hmode] at h; exact hr.1 (Option.some_inj.mp h)
  · intro h; rw [hmode] at h; exact hr.2.1 (Option.some_inj.mp h)
  · intro h; rw [hmode] at h; exact hr.2.2 (Option.some_inj.mp h)
  · rw [hfmt]; simp

/-- The `calculateDisplacement` path of Format 3 preserves the invariant. -/
theorem format3ViaDisp_nixbpeOk (line : TokenizedLine) (oe : OpcodeEntry)
    (r : ResolveResult) (target pc : Int) (base : Option Int) (hr : ModeFlagsOk r) :
    NixbpeOk (format3ViaDisp line oe r target pc base).1 := by
  unfold format3ViaDisp
  rcases he : (calculateDisplacement target pc base).error with _ | e
  · simp only [he]
    exact mk3_nixbpeOk _ _ _ _ _ _ _ hr (calcDisp_not_bp _ _ _)
  · simp only [he]
    exact nixbpeOk_none _ rfl

/-- Every Format 3 entry satisfies the NIXBPE invariant. -/
theorem generateFormat3_nixbpeOk (line : TokenizedLine) (oe : OpcodeEntry)
    (entry : IntermediateEntry) (st : SymbolTable) (base : Option Int) :
    NixbpeOk (generateFormat3 line oe entry st base).1 := by
  have hr := modeFlagsOk_resolve line st
  unfold generateFormat3
  rcases hrr : resolveAddressing line st with ⟨n, i, x, mode, target, err⟩
  rw [hrr] at hr
  dsimp only
  cases err with
  | some e => exact nixbpeOk_none _ rfl
  | none =>
    cases target with
    | none => exact mk3_nixbpeOk _ _ _ _ 0 0 _ hr (by decide)
    | some T =>
      cases ho : strTruthy line.operand with
      | none =>
        simp only [ho]
        exact format3ViaDisp_nixbpeOk _ _ _ _ _ _ hr
      | some op =>
        simp only [ho]
        repeat' split
        all_goals
          first
            | exact mk3_nixbpeOk _ _ _ _ 0 0 _ hr (by decide)
            | exact format3ViaDisp_nixbpeOk _ _ _ _ _ _ hr

/-- Every Format 4 entry satisfies the NIXBPE invariant. -/
theorem generateFormat4_nixbpeOk (line : TokenizedLine) (oe : OpcodeEntry)
    (entry : IntermediateEntry) (st : SymbolTable) :
    NixbpeOk (generateFormat4 line oe entry st).1 := by
  have hr := modeFlagsOk_resolve line st
  unfold generateFormat4
  rcases he : (resolveAddressing line st).error with _ | e
  · simp only [he]
    intro f hf
    have hfe : (⟨(resolveAddressing line st).n, (resolveAddressing line st).i,
        (resolveAddressing line st).x, 0, 0, 1⟩ : NixbpeFlags) = f := by
      exact Option.some_inj.mp hf
    subst hfe
    refine ⟨?_, ?_, ?_, by simp, by simp⟩
    · intro h; exact hr.1 (Option.some_inj.mp h)
    · intro h; exact hr.2.1 (Option.some_inj.mp h)
    · intro h; exact hr.2.2 (Option.some_inj.mp h)
  · simp only [he]
    exact nixbpeOk_none _ rfl

/-- Directive entries carry no flags. -/
theorem handleDirective_nixbpe (d : String) (line : TokenizedLine) (st : SymbolTable) :
    ((handleDirective d line st).1).nixbpe = none := by
  unfold handleDirective createErrorEntry
  repeat' (first | split | dsimp only)

/-- Every instruction entry satisfies the NIXBPE invariant. -/
theorem generateInstructionCode_nixbpeOk (line : TokenizedLine) (entry : IntermediateEntry)
    (st : SymbolTable) (base : Option Int) :
    NixbpeOk (generateInstructionCode line entry st base).1 := by
  unfold generateInstructionCode
  cases hoe : getOpcodeEntry (stripPlus (jsToUpper line.opcode)) with
  | none =>
    simp only [hoe]
    exact nixbpeOk_none _ rfl
  | some oe =>
    simp only [hoe]
    by_cases hext : line.isExtended = true ∨ jsStartsWith line.opcode "+" = true
    · rw [if_pos hext]
      exact generateFormat4_nixbpeOk line oe entry st
    · rw [if_neg hext]
      split_ifs
      · exact nixbpeOk_none _ rfl
      · exact nixbpeOk_none _ rfl
      · exact generateFormat3_nixbpeOk _ _ _ _ _
      · exact generateFormat4_nixbpeOk _ _ _ _
      · exact nixbpeOk_none _ rfl

/-- One Pass 2 step produces an invariant-satisfying entry. -/
theorem pass2Step_nixbpeOk (st : SymbolTable) (base : Option Int)
    (entry : IntermediateEntry) : NixbpeOk (pass2Step st base entry).1 := by
  unfold pass2Step
  dsimp only
  split
  · exact nixbpeOk_none _ rfl
  · split
    · rcases h : handleDirective (jsToUpper entry.line.opcode) entry.line st
        with ⟨e, bu, err⟩
      simp only [h]
      have := handleDirective_nixbpe (jsToUpper entry.line.opcode) entry.line st
      rw [h] at this
      exact nixbpeOk_none _ this
    · rcases h : generateInstructionCode entry.line entry st base with ⟨e, err⟩
      simp only [h]
      have := generateInstructionCode_nixbpeOk entry.line entry st base
      rw [h] at this
      exact this

/-- All entries of the Pass 2 loop satisfy the invariant. -/
theorem pass2Loop_nixbpeOk (l : List IntermediateEntry) (st : SymbolTable)
    (base : Option Int) : ∀ e ∈ (pass2Loop l st base).1, NixbpeOk e := by
  induction l generalizing base with
  | nil => intro e he; simp [pass2Loop] at he
  | cons hd tl ih =>
    intro e he
    rw [pass2Loop] at he
    rcases h1 : pass2Step st base hd with ⟨pe, base', err⟩
    rw [h1] at he
    dsimp only at he
    rcases h2 : pass2Loop tl st base' with ⟨pes, errs, baseFinal⟩
    rw [h2] at he
    dsimp only at he
    simp only [List.mem_cons] at he
    rcases he with rfl | he
    · have := pass2Step_nixbpeOk st base hd
      rw [h1] at this
      exact this
    · have := ih base' e
      rw [h2] at this
      exact this he

/-- **C2.** NIXBPE consistency: for every Pass 2 entry produced from any
input, immediate addressing has `(n,i)=(0,1)`, indirect `(1,0)`, simple
`(1,1)`; `b` and `p` are never both 1; and `e=1` exactly when the entry's
format is 4. -/
theorem c2_nixbpe_consistency (p : Pass1Result) :
    ∀ e ∈ (executePass2 p).entries, NixbpeOk e := by
  intro e he
  unfold executePass2 at he
  rcases h : pass2Loop p.intermediateFile p.symbolTable none with ⟨entries, errors, b⟩
  rw [h] at he
  have := pass2Loop_nixbpeOk p.intermediateFile p.symbolTable none e
  rw [h] at this
  exact this he

/-- Witness for C2: the `LDA FIVE` entry of Scenario A. -/
theorem c2_witness : NixbpeOk scenAEntry1 :=
  c2_nixbpe_consistency scenAP1 scenAEntry1 (by decide)

/-- String append concatenates the character lists. -/
theorem data_append (a b : String) : (a ++ b).data = a.data ++ b.data := rfl

/-- Length of the packed payload grows by the appended code's length. -/
theorem joinLen_append (codes : List String) (c : String) :
    ((codes ++ [c]).foldl (· ++ ·) "").data.length =
    ((codes.foldl (· ++ ·) "").data.length) + c.data.length := by
  rw [List.foldl_append]
  simp [data_append]

/-- Length bounds packed in `goodCodeB`. -/
theorem goodCodeB_spec (c : String) (h : goodCodeB c = true) :
    2 ≤ c.data.length ∧ c.data.length ≤ 60 := by
  unfold goodCodeB at h
  simp only [Bool.and_eq_true, decide_eq_true_eq, beq_iff_eq] at h
  exact ⟨h.1.2, h.2⟩

/-- Packing-loop invariant: under whole-byte bounded object codes and
forward-consistent locations, every produced text record satisfies
`recordOk`, the records are pairwise ordered, and every record starts at or
after the open record's start (or the location lower bound). -/
theorem genTextLoop_ok (l : List Pass2Entry) :
    ∀ (acc : Option (Int × List String × Nat)) (lb : Int),
    l.all goodEntryB = true →
    locsOkB lb l = true →
    (∀ s codes cnt, acc = some (s, codes, cnt) →
      (∀ c ∈ codes, goodCodeB c = true) ∧
      cnt = (codes.foldl (· ++ ·) "").data.length ∧
      2 ≤ cnt ∧ cnt ≤ 60 ∧ 2 * s + (cnt : Int) ≤ lb) →
    (∀ r ∈ genTextLoop l acc, recordOk r) ∧
    (genTextLoop l acc).Pairwise recBefore ∧
    (∀ r ∈ genTextLoop l acc,
      (match acc with
       | none => lb
       | some (s, _, _) => 2 * s) ≤ 2 * r.startAddress) := by
  induction l with
  | nil =>
    intro acc lb _ _ hacc
    match acc with
    | none => simp [genTextLoop]
    | some (s, codes, cnt) =>
      obtain ⟨_, hcnt, h1, h30, _⟩ := hacc s codes cnt rfl
      refine ⟨?_, ?_, ?_⟩
      · intro r hr
        simp only [genTextLoop, List.mem_singleton] at hr
        subst hr
        exact ⟨h1, h30, hcnt.symm⟩
      · simp [genTextLoop]
      · intro r hr
        simp only [genTextLoop, List.mem_singleton] at hr
        subst hr
        exact le_refl _
  | cons e rest ih =>
    intro acc lb hgood hloc hacc
    rw [List.all_cons, Bool.and_eq_true] at hgood
    obtain ⟨hge, hgrest⟩ := hgood
    cases hc : entryCode e with
    | none =>
      have hloc' : locsOkB lb rest = true := by
        rw [locsOkB] at hloc
        simpa only [hc] using hloc
      simp only [genTextLoop, hc]
      cases acc with
      | none =>
        exact ih none lb hgrest hloc' (by intro s codes cnt h; cases h)
      | some sc =>
        obtain ⟨s, codes, cnt⟩ := sc
        obtain ⟨_, hcnt, h1, h30, hsl⟩ := hacc s codes cnt rfl
        obtain ⟨ih1, ih2, ih3⟩ := ih none lb hgrest hloc'
          (by intro s' c' n' h; cases h)
        refine ⟨?_, ?_, ?_⟩
        · intro r hr
          rcases List.mem_cons.mp hr with rfl | hr
          · exact ⟨h1, h30, hcnt.symm⟩
          · exact ih1 r hr
        · refine List.Pairwise.cons ?_ ih2
          intro r hr
          have h3 := ih3 r hr
          simp only at h3
          show 2 * s + (cnt : Int) ≤ 2 * r.startAddress
          omega
        · intro r hr
          rcases List.mem_cons.mp hr with rfl | hr
          · exact le_refl _
          · have h3 := ih3 r hr
            simp only at h3 ⊢
            omega
    | some code =>
      have hgc : goodCodeB code = true := by
        unfold goodEntryB at hge
        rw [hc] at hge
        exact hge
      obtain ⟨hlen2, hlen60⟩ := goodCodeB_spec code hgc
      have hlocsplit : lb ≤ 2 * e.line.location.getD 0 ∧
          locsOkB (2 * e.line.location.getD 0 + (code.data.length : Int)) rest = true := by
        rw [locsOkB] at hloc
        simpa only [hc, Bool.and_eq_true, decide_eq_true_eq] using hloc
      obtain ⟨hll, hloc'⟩ := hlocsplit
      simp only [genTextLoop, hc]
      have hacc' : ∀ s' codes' cnt',
          (some (e.line.location.getD 0, [code], code.data.length) :
            Option (Int × List String × Nat)) = some (s', codes', cnt') →
          (∀ c ∈ codes', goodCodeB c = true) ∧
          cnt' = (codes'.foldl (· ++ ·) "").data.length ∧
          2 ≤ cnt' ∧ cnt' ≤ 60 ∧ 2 * s' + (cnt' : Int) ≤
            2 * e.line.location.getD 0 + (code.data.length : Int) := by
        intro s' codes' cnt' h
        injection h with h
        injection h with hs h
        injection h with hcodes hcnt'
        subst hs; subst hcodes; subst hcnt'
        exact ⟨by intro c hcm; rw [List.mem_singleton.mp hcm]; exact hgc, rfl,
          hlen2, hlen60, le_refl _⟩
      cases acc with
      | none =>
        dsimp only
        obtain ⟨ih1, ih2, ih3⟩ := ih
          (some (e.line.location.getD 0, [code], code.data.length))
          (2 * e.line.location.getD 0 + (code.data.length : Int))
          hgrest hloc' hacc'
        refine ⟨ih1, ih2, ?_⟩
        intro r hr
        have h3 := ih3 r hr
        simp only at h3
        omega
      | some sc =>
        obtain ⟨s, codes, cnt⟩ := sc
        obtain ⟨hg, hcnt, h1, h30, hsl⟩ := hacc s codes cnt rfl
        dsimp only
        split_ifs with hover
        · obtain ⟨ih1, ih2, ih3⟩ := ih
            (some (e.line.location.getD 0, [code], code.data.length))
            (2 * e.line.location.getD 0 + (code.data.length : Int))
            hgrest hloc' hacc'
          refine ⟨?_, ?_, ?_⟩
          · intro r hr
            rcases List.mem_cons.mp hr with rfl | hr
            · exact ⟨h1, h30, hcnt.symm⟩
            · exact ih1 r hr
          · refine List.Pairwise.cons ?_ ih2
            intro r hr
            have h3 := ih3 r hr
            simp only at h3
            show 2 * s + (cnt : Int) ≤ 2 * r.startAddress
            omega
          · intro r hr
            rcases List.mem_cons.mp hr with rfl | hr
            · exact le_refl _
            · have h3 := ih3 r hr
              simp only at h3
              omega
        · have hacc2 : ∀ s' codes' cnt',
              (some (s, codes ++ [code], cnt + code.data.length) :
                Option (Int × List String × Nat)) = some (s', codes', cnt') →
              (∀ c ∈ codes', goodCodeB c = true) ∧
              cnt' = (codes'.foldl (· ++ ·) "").data.length ∧
              2 ≤ cnt' ∧ cnt' ≤ 60 ∧ 2 * s' + (cnt' : Int) ≤
                2 * e.line.location.getD 0 + (code.data.length : Int) := by
            intro s' codes' cnt' h
            injection h with h
            injection h with hs h
            injection h with hcodes hcnt'
            subst hs; subst hcodes; subst hcnt'
            refine ⟨?_, ?_, by omega, by omega, by omega⟩
            · intro c hcm
              rcases List.mem_append.mp hcm with hcm | hcm
              · exact hg c hcm
              · rw [List.mem_singleton.mp hcm]; exact hgc
            · rw [joinLen_append, hcnt]
          obtain ⟨ih1, ih2, ih3⟩ := ih
            (some (s, codes ++ [code], cnt + code.data.length))
            (2 * e.line.location.getD 0 + (code.data.length : Int))
            hgrest hloc' hacc2
          refine ⟨ih1, ih2, ?_⟩
          intro r hr
          have h3 := ih3 r hr
          simp only at h3 ⊢
          exact h3

/-- **C3 (amended).** Text-record packing: provided every entry's object
code is a whole number of bytes between 1 and 30 (even hex length 2..60) —
which single oversized BYTE constants violate — and provided the entries'
locations are forward-consistent (no backwards ORG), every text record has
byte count between 1 and 30, its hex payload length is exactly twice its
byte count, and the records' ranges are pairwise disjoint with strictly
increasing start addresses. -/
theorem c3_textrecord_packing (p2 : Pass2Result)
    (hgood : p2.entries.all goodEntryB = true)
    (hloc : locsOkB 0 p2.entries = true) :
    (∀ r ∈ generateTextRecords p2,
      1 ≤ byteCountQ r ∧ byteCountQ r ≤ 30 ∧
      (r.objectCode.data.length : ℚ) = 2 * byteCountQ r) ∧
    (generateTextRecords p2).Pairwise
      (fun a b => (a.startAddress : ℚ) + byteCountQ a ≤ (b.startAddress : ℚ) ∧
        a.startAddress < b.startAddress) := by
  obtain ⟨h1, h2, _⟩ := genTextLoop_ok p2.entries none 0 hgood hloc
    (by intro s codes cnt h; cases h)
  constructor
  · intro r hr
    obtain ⟨ha, hb, hcc⟩ := h1 r hr
    unfold byteCountQ
    refine ⟨?_, ?_, ?_⟩
    · have : (2 : ℚ) ≤ (r.length2 : ℚ) := by exact_mod_cast ha
      linarith
    · have : (r.length2 : ℚ) ≤ 60 := by exact_mod_cast hb
      linarith
    · have : (r.objectCode.data.length : ℚ) = (r.length2 : ℚ) := by exact_mod_cast hcc
      rw [this]; ring
  · refine List.Pairwise.imp_of_mem ?_ h2
    intro a b ha hb hab
    obtain ⟨ha2, _, _⟩ := h1 a ha
    unfold recBefore at hab
    constructor
    · unfold byteCountQ
      have hq : ((2 * a.startAddress + (a.length2 : Int) : Int) : ℚ) ≤
          ((2 * b.startAddress : Int) : ℚ) := by exact_mod_cast hab
      push_cast at hq ⊢
      linarith
    · omega

/-- Witness for C3 (amended): Scenario A satisfies the hypotheses and its
single text record obeys the packing invariant. -/
theorem c3_witness :
    (∀ r ∈ generateTextRecords scenAP2,
      1 ≤ byteCountQ r ∧ byteCountQ r ≤ 30 ∧
      (r.objectCode.data.length : ℚ) = 2 * byteCountQ r) ∧
    (generateTextRecords scenAP2).Pairwise
      (fun a b => (a.startAddress : ℚ) + byteCountQ a ≤ (b.startAddress : ℚ) ∧
        a.startAddress < b.startAddress) :=
  c3_textrecord_packing scenAP2 (by decide) (by decide)

/-- Counterexample for C3 as stated: a single 31-character BYTE constant
(an accepted input) produces a text record with byte count 31 > 30. -/
theorem c3_counterexample :
    (generateTextRecords (executePass2 (executePass1 longByteLines))).map
      byteCountQ = [31] ∧ ¬((31 : ℚ) ≤ 30) := by
  have h : (generateTextRecords (executePass2 (executePass1 longByteLines))).map
      (fun r => r.length2) = [62] := by decide
  constructor
  · rcases hg : generateTextRecords (executePass2 (executePass1 longByteLines))
      with _ | ⟨r, rest⟩
    · rw [hg] at h; cases h
    · rw [hg] at h
      simp only [List.map_cons] at h ⊢
      have hr : r.length2 = 62 ∧ rest.map (fun r => r.length2) = [] := by
        have := List.cons.injEq (r.length2) (rest.map (fun r => r.length2)) 62 []
        rw [← this]
        exact h
      have hrest : rest = [] := List.map_eq_nil_iff.mp hr.2
      subst hrest
      simp only [List.map_nil]
      unfold byteCountQ
      rw [hr.1]
      norm_num
  · norm_num

/-- **C4 (amended).** The record generator emits exactly one modification
record per Pass 2 entry with `format = 4` and `needs_modification`, in
order, and none for any other entry (in particular none for WORD entries);
each record sits at `location + 1`, has length 5 half-bytes, sign `+`, and
carries the program name truncated to at most 6 characters in its raw form
(no padding). -/
theorem c4_modification_records (p2 : Pass2Result) (programName : String) :
    generateModificationRecords p2 programName =
      (p2.entries.filter
        (fun e => decide (e.needsModification = true ∧ e.format = 4))).map
        (fun e =>
          { address := e.line.location.getD 0 + 1
            length := 5
            symbol := programName
            sign := '+'
            raw := "M^" ++ padStart (intToHexUpper (e.line.location.getD 0 + 1)) 6 '0' ++
              "^" ++ padStart (toHexUpper 5) 2 '0' ++ "^+" ++ jsTake programName 6 }) := by
  unfold generateModificationRecords
  induction p2.entries with
  | nil => rfl
  | cons a t ih =>
    rw [List.filterMap_cons, List.filter_cons]
    by_cases h : a.needsModification = true ∧ a.format = 4
    · rw [if_pos h]
      have hd : decide (a.needsModification = true ∧ a.format = 4) = true := by
        exact decide_eq_true h
      rw [hd]
      simp only [if_pos, List.map_cons]
      rw [ih]
    · rw [if_neg h]
      have hd : decide (a.needsModification = true ∧ a.format = 4) = false := by
        exact decide_eq_false h
      rw [hd]
      simp only [Bool.false_eq_true, if_false]
      exact ih

/-- Counterexample for C4 as stated: with the 4-character program name
`COPY`, the emitted raw modification record carries `+COPY`, not the
6-character padded `+COPY  ` the "truncated/padded to 6" wording requires. -/
theorem c4_counterexample :
    m4DemoOP.modificationRecords.map (fun m => m.raw) = ["M^001001^05^+COPY"] ∧
    "M^001001^05^+COPY" ≠ "M^001001^05^+" ++ padEnd (jsTake "COPY" 6) 6 ' ' := by
  constructor
  · decide
  · decide

/-- Reading `n + 1` cells splits off the first cell. -/
theorem readRun_succ (f : Int → Nat) (start : Int) (n : Nat) :
    readRun f start (n + 1) = f start :: readRun f (start + 1) n := by
  unfold readRun
  rw [List.range_succ_eq_map]
  simp only [List.map_cons, List.map_map, Nat.cast_zero, add_zero]
  congr 1
  apply List.map_congr_left
  intro i _
  simp only [Function.comp_apply]
  congr 1
  push_cast
  ring

/-- Reading depends only on the cells actually read. -/
theorem readRun_congr (f g : Int → Nat) (start : Int) (n : Nat)
    (h : ∀ i : Nat, i < n → f (start + i) = g (start + i)) :
    readRun f start n = readRun g start n := by
  unfold readRun
  apply List.map_congr_left
  intro i hi
  exact h i (List.mem_range.mp hi)

/-- A text-record byte run leaves every cell outside its range unchanged. -/
theorem writeRun_outside (ms : Int) (bs : List Nat) :
    ∀ (addr : Int) (bytes : Int → Nat) (meta : Int → Option MemType) (a : Int),
      (a < addr ∨ addr + bs.length ≤ a) →
      (writeRun ms addr bs bytes meta).1 a = bytes a := by
  induction bs with
  | nil => intro addr bytes meta a _; rfl
  | cons b rest ih =>
    intro addr bytes meta a ha
    simp only [List.length_cons] at ha
    have hne : a ≠ addr := by
      rcases ha with h | h
      · omega
      · push_cast at h; omega
    have ha' : a < addr + 1 ∨ addr + 1 + (rest.length : Int) ≤ a := by
      rcases ha with h | h
      · omega
      · right; push_cast at h; omega
    simp only [writeRun]
    by_cases hms : addr < ms
    · rw [if_pos hms, ih (addr + 1) _ _ a ha']
      by_cases h0 : (0 : Int) ≤ addr
      · rw [if_pos h0]
        simp only [if_neg hne]
      · rw [if_neg h0]
    · rw [if_neg hms]
      exact ih (addr + 1) _ _ a ha'

/-- A fully in-bounds byte run reads back exactly as written. -/
theorem writeRun_read (ms : Int) (bs : List Nat) :
    ∀ (addr : Int) (bytes : Int → Nat) (meta : Int → Option MemType),
      0 ≤ addr → addr + bs.length ≤ ms →
      readRun (writeRun ms addr bs bytes meta).1 addr bs.length = bs := by
  induction bs with
  | nil => intro addr bytes meta _ _; rfl
  | cons b rest ih =>
    intro addr bytes meta h0 hms
    simp only [List.length_cons] at hms ⊢
    push_cast at hms
    have haddr : addr < ms := by omega
    have hrec : writeRun ms addr (b :: rest) bytes meta =
        writeRun ms (addr + 1) rest (fun a => if a = addr then b else bytes a)
          (fun a => if a = addr then some .code else meta a) := by
      simp only [writeRun, if_pos haddr, if_pos h0]
    rw [readRun_succ, hrec]
    have h1 : (writeRun ms (addr + 1) rest (fun a => if a = addr then b else bytes a)
        (fun a => if a = addr then some .code else meta a)).1 addr = b := by
      rw [writeRun_outside ms rest (addr + 1) _ _ addr (Or.inl (by omega))]
      simp
    have h2 : readRun (writeRun ms (addr + 1) rest (fun a => if a = addr then b else bytes a)
        (fun a => if a = addr then some .code else meta a)).1 (addr + 1) rest.length = rest :=
      ih (addr + 1) _ _ (by omega) (by omega)
    rw [h1, h2]

/-- Loading one text record only rewrites cells inside its range. -/
theorem loadTextRecord_bytes_outside (ms : Int) (m : Memory) (r : TextRecord) (a : Int)
    (h : a < r.startAddress ∨ r.startAddress + nTextBytes r ≤ a) :
    (loadTextRecord ms m r).bytes a = m.bytes a := by
  show (writeRun ms r.startAddress (hexStringToBytes r.objectCode) m.bytes m.metadata).1 a
      = m.bytes a
  exact writeRun_outside ms _ _ _ _ a h

/-- Loading a list of records whose ranges avoid a cell leaves it unchanged. -/
theorem foldl_load_outside (ms : Int) (lst : List TextRecord) :
    ∀ (m : Memory) (a : Int),
      (∀ s ∈ lst, a < s.startAddress ∨ s.startAddress + nTextBytes s ≤ a) →
      (lst.foldl (loadTextRecord ms) m).bytes a = m.bytes a := by
  induction lst with
  | nil => intro m a _; rfl
  | cons t rest ih =>
    intro m a h
    rw [List.foldl_cons, ih _ a (fun s hs => h s (List.mem_cons_of_mem t hs)),
      loadTextRecord_bytes_outside ms m t a (h t (List.mem_cons_self t rest))]

/-- Modification records never touch the byte store, only metadata. -/
theorem foldl_mod_bytes (mods : List ModificationRecord) :
    ∀ m : Memory, (mods.foldl applyModRecord m).bytes = m.bytes := by
  induction mods with
  | nil => intro m; rfl
  | cons r rest ih =>
    intro m
    rw [List.foldl_cons, ih]
    rfl

/-- Round trip for a pairwise-disjoint, in-bounds record list. -/
theorem foldl_load_read (ms : Int) (lst : List TextRecord) :
    ∀ m : Memory, lst.Pairwise trDisjoint →
      (∀ r ∈ lst, trInBounds ms r) →
      ∀ r ∈ lst,
        readRun (lst.foldl (loadTextRecord ms) m).bytes r.startAddress (nTextBytes r) =
          hexStringToBytes r.objectCode := by
  induction lst with
  | nil =>
    intro m _ _ r hr
    cases hr
  | cons t rest ih =>
    intro m hpair hb r hr
    rcases List.mem_cons.mp hr with rfl | hr'
    · rw [List.foldl_cons]
      have hout : ∀ i : Nat, i < nTextBytes r →
          (rest.foldl (loadTextRecord ms) (loadTextRecord ms m r)).bytes
            (r.startAddress + i) = (loadTextRecord ms m r).bytes (r.startAddress + i) := by
        intro i hi
        apply foldl_load_outside
        intro s hs
        have hd := (List.pairwise_cons.mp hpair).1 s hs
        unfold trDisjoint at hd
        rcases hd with h | h
        · left; omega
        · right; omega
      rw [readRun_congr _ _ _ _ hout]
      have hbnd := hb r (List.mem_cons_self r rest)
      show readRun (writeRun ms r.startAddress (hexStringToBytes r.objectCode)
          m.bytes m.metadata).1 r.startAddress (hexStringToBytes r.objectCode).length
          = hexStringToBytes r.objectCode
      exact writeRun_read ms _ r.startAddress m.bytes m.metadata hbnd.1 hbnd.2
    · rw [List.foldl_cons]
      exact ih _ (List.pairwise_cons.mp hpair).2
        (fun s hs => hb s (List.mem_cons_of_mem t hs)) r hr'

/-- **C5 (amended).** When the object program's text records have pairwise
disjoint address ranges lying inside the memory image, loading it and
reading back each record's range yields exactly that record's emitted hex
decoded to bytes; and independently of any hypothesis, applying
modification records changes only per-byte metadata, never a byte value.
(Disjointness is needed: the generator itself can emit overlapping records
through a backwards `ORG`, see the counterexample.) -/
theorem c5_load_roundtrip (op : ObjectProgram) (memorySize : Int)
    (hpair : op.textRecords.Pairwise trDisjoint)
    (hbound : ∀ r ∈ op.textRecords, trInBounds memorySize r) :
    (∀ r ∈ op.textRecords,
      readBytes (loadObjectProgram op memorySize) r.startAddress (nTextBytes r) =
        hexStringToBytes r.objectCode) ∧
    (∀ (m : Memory) (mods : List ModificationRecord),
      (mods.foldl applyModRecord m).bytes = m.bytes) := by
  constructor
  · intro r hr
    have hbytes : (loadObjectProgram op memorySize).bytes =
        (op.textRecords.foldl (loadTextRecord memorySize)
          { bytes := fun _ => 0
            programStart := op.startAddress
            programEnd := op.startAddress + op.programLength
            metadata := fun _ => none }).bytes := by
      show (op.modificationRecords.foldl applyModRecord _).bytes = _
      exact foldl_mod_bytes _ _
    unfold readBytes
    rw [hbytes]
    exact foldl_load_read memorySize op.textRecords _ hpair hbound r hr
  · exact fun m mods => foldl_mod_bytes mods m

theorem c5_witness :
    scenAOP.textRecords.Pairwise trDisjoint ∧
    (∀ r ∈ scenAOP.textRecords, trInBounds 32768 r) ∧
    (∀ r ∈ scenAOP.textRecords,
      readBytes (loadObjectProgram scenAOP 32768) r.startAddress (nTextBytes r) =
        hexStringToBytes r.objectCode) :=
  ⟨by decide, by decide,
    (c5_load_roundtrip scenAOP 32768 (by decide) (by decide)).1⟩

/-- Counterexample for C5 as stated ("for every object program produced by
the generator"): the valid source `X START 0 / BYTE X'FF' / ORG 0 /
BYTE X'00' / END` produces two text records with the same start address 0;
after loading, the first record's range reads back `[0]`, not the `[255]`
it emitted. -/
theorem c5_counterexample :
    overlapOP.textRecords.map (fun r => (r.startAddress, r.objectCode)) =
      [(0, "FF"), (0, "00")] ∧
    readBytes (loadObjectProgram overlapOP 32768)
      (overlapOP.textRecords.getD 0 ⟨0, 0, ""⟩).startAddress
      (nTextBytes (overlapOP.textRecords.getD 0 ⟨0, 0, ""⟩)) = [0] ∧
    hexStringToBytes (overlapOP.textRecords.getD 0 ⟨0, 0, ""⟩).objectCode = [255] ∧
    ([0] : List Nat) ≠ [255] := by
  refine ⟨by decide, by decide, by decide, by decide⟩

/-- **C6 (amended).** Assembling `LDA #100` at any location (with `LENGTH`
bound to any value in the symbol table) emits a Format-3 entry with
`(n,i) = (0,1)`, `b = p = 0` and displacement mode `direct` — but its
displacement field is `0x100` = 256, not `0x064` = 100, because
`parseNumericOperand` tries a bare-hex parse before decimal, so the literal
`100` reads as hex; the object code is `010100`.  `LDA #LENGTH`, by
contrast, routes through `calculateDisplacement` (the PC/BASE-relative
selection) at `pc = location + 3`; inside the PC-relative window it sets
`p = 1` (and `b = 0`). -/
theorem c6_immediate_paths (L v : Int) (base : Option Int) :
    (generateFormat3 lda100Line ldaOpEntry (mkEntry lda100Line (some L) 3)
        [("LENGTH", v)] base =
      ({ line := lda100Line
         format := 3
         nixbpe := some ⟨0, 1, 0, 0, 0, 0⟩
         targetAddress := some 256
         displacement := some 256
         displacementMode := .direct
         addressingMode := some .immediate
         objectCode := some "010100"
         needsModification := false }, none)) ∧
    (generateFormat3 ldaLenLine ldaOpEntry (mkEntry ldaLenLine (some L) 3)
        [("LENGTH", v)] base =
      format3ViaDisp ldaLenLine ldaOpEntry
        ⟨0, 1, 0, .immediate, some v, none⟩ v (L + 3) base) ∧
    ((-2048 ≤ v - (L + 3) ∧ v - (L + 3) ≤ 2047) →
      (generateFormat3 ldaLenLine ldaOpEntry (mkEntry ldaLenLine (some L) 3)
          [("LENGTH", v)] base).1.nixbpe = some ⟨0, 1, 0, 0, 1, 0⟩) := by
  refine ⟨?_, rfl, ?_⟩
  · have h0 : generateFormat3 lda100Line ldaOpEntry (mkEntry lda100Line (some L) 3)
        [("LENGTH", v)] base =
        generateFormat3 lda100Line ldaOpEntry (mkEntry lda100Line (some 0) 3)
          [("LENGTH", 0)] none := rfl
    rw [h0]
    decide
  intro h
  show (format3ViaDisp ldaLenLine ldaOpEntry
      ⟨0, 1, 0, .immediate, some v, none⟩ v (L + 3) base).1.nixbpe = some ⟨0, 1, 0, 0, 1, 0⟩
  unfold format3ViaDisp
  simp only [calculateDisplacement]
  rw [if_pos h]
  rfl

theorem c6_witness :
    (-2048 ≤ (100 : Int) - (0 + 3) ∧ (100 : Int) - (0 + 3) ≤ 2047) ∧
    (generateFormat3 ldaLenLine ldaOpEntry (mkEntry ldaLenLine (some 0) 3)
        [("LENGTH", 100)] none).1.nixbpe = some ⟨0, 1, 0, 0, 1, 0⟩ :=
  ⟨by decide, (c6_immediate_paths 0 100 none).2.2 (by decide)⟩

/-- Counterexample for C6 as stated: at location 0 the displacement field
of `LDA #100` is 256 (`0x100`), not `0x064` = 100, because the operand
text `100` is parsed as hexadecimal first. -/
theorem c6_counterexample :
    (generateFormat3 lda100Line ldaOpEntry (mkEntry lda100Line (some 0) 3)
        [] none).1.displacement = some 256 ∧
    parseNumericOperand "100" = some 256 ∧ (256 : Int) ≠ 0x64 := by
  refine ⟨by decide, by decide, by decide⟩

/-- **C7 (amended).** With `BUFEND EQU BUFFER+4096` before
`BUFFER RESB 4096`, the deferred-EQU fixed point does resolve `BUFEND` to
BUFFER's address plus the parsed operand value and inserts it into the
symbol table — but the addend `4096` parses as *hexadecimal* `0x4096` =
16534 (bare-hex before decimal), so with `BUFFER` at 0, `BUFEND` becomes
16534, not 4096. -/
theorem c7_deferred_equ :
    stLookup (executePass1 deferDemoLines).symbolTable "BUFFER" = some 0 ∧
    stLookup (executePass1 deferDemoLines).symbolTable "BUFEND" = some 16534 ∧
    parseNumericOperand "4096" = some 0x4096 ∧ (0x4096 : Int) = 16534 ∧
    evaluateExpression "BUFFER+4096"
      (executePass1 deferDemoLines).symbolTable 0 = some 16534 := by
  refine ⟨by decide, by decide, by decide, by decide, by decide⟩

/-- Counterexample for C7 as stated: `BUFFER` sits at address 0, so the
claimed decimal reading would give `BUFEND` = 4096; the fixed point
actually records 16534. -/
theorem c7_counterexample :
    stLookup (executePass1 deferDemoLines).symbolTable "BUFFER" = some 0 ∧
    stLookup (executePass1 deferDemoLines).symbolTable "BUFEND" = some 16534 ∧
    (16534 : Int) ≠ 0 + 4096 := by
  refine ⟨by decide, by decide, by decide⟩

/-- **C8.** A `BASE` directive with a truthy operand resolves it by
symbol-table lookup first and numeric parsing second, setting the base
register to the resolved value with no diagnostic; when neither resolves,
the step reports an error and the base register keeps its previous value. -/
theorem c8_base_directive (line : TokenizedLine) (st : SymbolTable)
    (prevBase : Option Int) (entry : IntermediateEntry) (o : String)
    (hline : entry.line = line)
    (hne : ¬(line.isEmpty ∨ line.isComment))
    (hop : jsToUpper line.opcode = "BASE")
    (hoper : strTruthy line.operand = some o) :
    (∀ v : Int, stHas st (jsToUpper o) = true → stLookup st (jsToUpper o) = some v →
      (pass2Step st prevBase entry).2.1 = some v ∧
      (pass2Step st prevBase entry).2.2 = none) ∧
    (∀ v : Int, stHas st (jsToUpper o) = false →
      parseNumericOperand (jsToUpper o) = some v →
      (pass2Step st prevBase entry).2.1 = some v ∧
      (pass2Step st prevBase entry).2.2 = none) ∧
    (stHas st (jsToUpper o) = false → parseNumericOperand (jsToUpper o) = none →
      (pass2Step st prevBase entry).2.1 = prevBase ∧
      (pass2Step st prevBase entry).2.2 = some (errAt line.lineNumber)) := by
  have hdir : isDirective "BASE" = true := by decide
  have hstep : pass2Step st prevBase entry =
      ((handleDirective "BASE" line st).1,
        (match (handleDirective "BASE" line st).2.1 with
         | some b => b
         | none => prevBase),
        (handleDirective "BASE" line st).2.2.map (fun _ => errAt line.lineNumber)) := by
    unfold pass2Step
    simp only [hline]
    rw [if_neg hne]
    simp only [hop]
    rw [if_pos hdir]
  refine ⟨?_, ?_, ?_⟩
  · intro v hhas hlk
    have hb : (if stHas st (jsToUpper o) = true then stLookup st (jsToUpper o)
        else parseNumericOperand (jsToUpper o)) = some v := by
      rw [if_pos hhas, hlk]
    have hbase : handleDirective "BASE" line st = (createErrorEntry line, some (some v), none) := by
      unfold handleDirective
      rw [if_pos rfl]
      simp only [hoper]
      rw [hb]
    rw [hstep, hbase]
    exact ⟨rfl, rfl⟩
  · intro v hhas hnum
    have hb : (if stHas st (jsToUpper o) = true then stLookup st (jsToUpper o)
        else parseNumericOperand (jsToUpper o)) = some v := by
      rw [if_neg (by rw [hhas]; exact Bool.false_ne_true), hnum]
    have hbase : handleDirective "BASE" line st = (createErrorEntry line, some (some v), none) := by
      unfold handleDirective
      rw [if_pos rfl]
      simp only [hoper]
      rw [hb]
    rw [hstep, hbase]
    exact ⟨rfl, rfl⟩
  · intro hhas hnum
    have hb : (if stHas st (jsToUpper o) = true then stLookup st (jsToUpper o)
        else parseNumericOperand (jsToUpper o)) = none := by
      rw [if_neg (by rw [hhas]; exact Bool.false_ne_true), hnum]
    have hbase : handleDirective "BASE" line st =
        (createErrorEntry line, none, some ("Undefined symbol for BASE: " ++ o)) := by
      unfold handleDirective
      rw [if_pos rfl]
      simp only [hoper]
      rw [hb]
    rw [hstep, hbase]
    exact ⟨rfl, rfl⟩

theorem c8_witness :
    (pass2Step [("X", 77)] none
        (mkEntry { lineNumber := 7, opcode := "BASE", operand := some "X" } (some 0) 0)).2.1 =
      some 77 ∧
    (pass2Step [("X", 77)] none
        (mkEntry { lineNumber := 7, opcode := "BASE", operand := some "X" } (some 0) 0)).2.2 =
      none :=
  (c8_base_directive { lineNumber := 7, opcode := "BASE", operand := some "X" }
      [("X", 77)] none
      (mkEntry { lineNumber := 7, opcode := "BASE", operand := some "X" } (some 0) 0) "X"
      rfl (by decide) (by decide) (by decide)).1 77 (by decide) (by decide)

/-- **C9 (code bug).** The parser accepts `SVC 16` (`validateFormat2Operands`
reports no error for any decimal operand), but `generateFormat2` prints each
numeric operand with `toString(16)` un-padded, so the emitted object code
`B0100` has five hex characters — an odd length, breaking the documented
whole-number-of-bytes invariant; the text record built from it records an
odd half-byte payload. -/
theorem c9_svc_odd_length :
    validateFormat2Operands "SVC" "16" 1 = [] ∧
    ((executePass2 (executePass1 svcLines)).entries.getD 1
      (createErrorEntry {})).objectCode = some "B0100" ∧
    "B0100".data.length % 2 = 1 ∧
    (generateTextRecords (executePass2 (executePass1 svcLines))).map
      (fun r => (r.objectCode, r.length2)) = [("B0100", 5)] := by
  refine ⟨by decide, by decide, by decide, by decide⟩

/-- Every generator hands back the line it was given. -/
theorem format3ViaDisp_line (line : TokenizedLine) (oe : OpcodeEntry) (r : ResolveResult)
    (target pc : Int) (base : Option Int) :
    (format3ViaDisp line oe r target pc base).1.line = line := by
  unfold format3ViaDisp
  rcases he : (calculateDisplacement target pc base).error with _ | e
  · simp only [he]
    rfl
  · simp only [he]
    rfl

/-- `generateFormat3` preserves the source line. -/
theorem generateFormat3_line (line : TokenizedLine) (oe : OpcodeEntry)
    (entry : IntermediateEntry) (st : SymbolTable) (base : Option Int) :
    (generateFormat3 line oe entry st base).1.line = line := by
  unfold generateFormat3
  rcases hrr : resolveAddressing line st with ⟨n, i, x, mode, target, err⟩
  dsimp only
  cases err with
  | some e => rfl
  | none =>
    cases target with
    | none => rfl
    | some T =>
      cases ho : strTruthy line.operand with
      | none =>
        simp only [ho]
        exact format3ViaDisp_line _ _ _ _ _ _
      | some op =>
        simp only [ho]
        repeat' split
        all_goals first | rfl | exact format3ViaDisp_line _ _ _ _ _ _

/-- `generateFormat4` preserves the source line. -/
theorem generateFormat4_line (line : TokenizedLine) (oe : OpcodeEntry)
    (entry : IntermediateEntry) (st : SymbolTable) :
    (generateFormat4 line oe entry st).1.line = line := by
  unfold generateFormat4
  rcases hrr : resolveAddressing line st with ⟨n, i, x, mode, target, err⟩
  dsimp only
  cases err with
  | some e => rfl
  | none => rfl

/-- `handleDirective` preserves the source line. -/
theorem handleDirective_line (d : String) (line : TokenizedLine) (st : SymbolTable) :
    ((handleDirective d line st).1).line = line := by
  unfold handleDirective createErrorEntry
  repeat' (first | split | dsimp only)

/-- `generateInstructionCode` preserves the source line. -/
theorem generateInstructionCode_line (line : TokenizedLine) (entry : IntermediateEntry)
    (st : SymbolTable) (base : Option Int) :
    (generateInstructionCode line entry st base).1.line = line := by
  unfold generateInstructionCode
  cases hoe : getOpcodeEntry (stripPlus (jsToUpper line.opcode)) with
  | none =>
    simp only [hoe]
    rfl
  | some oe =>
    simp only [hoe]
    by_cases hext : line.isExtended = true ∨ jsStartsWith line.opcode "+" = true
    · rw [if_pos hext]
      exact generateFormat4_line line oe entry st
    · rw [if_neg hext]
      split_ifs
      · rfl
      · rfl
      · exact generateFormat3_line _ _ _ _ _
      · exact generateFormat4_line _ _ _ _
      · rfl

/-- One Pass 2 step preserves the source line of its intermediate entry. -/
theorem pass2Step_line (st : SymbolTable) (base : Option Int) (entry : IntermediateEntry) :
    (pass2Step st base entry).1.line = entry.line := by
  unfold pass2Step
  dsimp only
  split
  · rfl
  · split
    · rcases h : handleDirective (jsToUpper entry.line.opcode) entry.line st with ⟨e, bu, err⟩
      simp only [h]
      have hl := handleDirective_line (jsToUpper entry.line.opcode) entry.line st
      rw [h] at hl
      exact hl
    · rcases h : generateInstructionCode entry.line entry st base with ⟨e, err⟩
      simp only [h]
      have hl := generateInstructionCode_line entry.line entry st base
      rw [h] at hl
      exact hl

/-- The Pass 2 loop emits exactly one entry per intermediate entry. -/
theorem pass2Loop_length (l : List IntermediateEntry) :
    ∀ (st : SymbolTable) (base : Option Int), (pass2Loop l st base).1.length = l.length := by
  induction l with
  | nil => intro st base; rfl
  | cons hd tl ih =>
    intro st base
    rw [show (pass2Loop (hd :: tl) st base).1 =
        (pass2Step st base hd).1 :: (pass2Loop tl st (pass2Step st base hd).2.1).1 from rfl]
    simp only [List.length_cons]
    rw [ih st _]

/-- The Pass 2 loop keeps the intermediate file's lines in order. -/
theorem pass2Loop_lines (l : List IntermediateEntry) :
    ∀ (st : SymbolTable) (base : Option Int) (i : Nat),
      ((pass2Loop l st base).1.get? i).map (fun e => e.line) =
        (l.get? i).map (fun e => e.line) := by
  induction l with
  | nil => intro st base i; cases i <;> rfl
  | cons hd tl ih =>
    intro st base i
    rw [show (pass2Loop (hd :: tl) st base).1 =
        (pass2Step st base hd).1 :: (pass2Loop tl st (pass2Step st base hd).2.1).1 from rfl]
    cases i with
    | zero =>
      simp only [List.get?_cons_zero, Option.map_some']
      rw [pass2Step_line]
    | succ n =>
      simp only [List.get?_cons_succ]
      exact ih _ _ n

/-- **C10.** Pass 2 emits exactly one entry per Pass 1 intermediate entry,
in order (same length, and the `i`-th entry carries the `i`-th intermediate
line); and the call never mutates its input: the caller's `Pass1Result` —
symbol table, intermediate file and all — comes back unchanged beside the
Pass 2 result. -/
theorem c10_frame (p : Pass1Result) :
    (executePass2 p).entries.length = p.intermediateFile.length ∧
    (∀ i : Nat, ((executePass2 p).entries.get? i).map (fun e => e.line) =
      (p.intermediateFile.get? i).map (fun e => e.line)) ∧
    executePass2Call p = (executePass2 p, p) := by
  have hent : (executePass2 p).entries =
      (pass2Loop p.intermediateFile p.symbolTable none).1 := rfl
  refine ⟨?_, ?_, rfl⟩
  · rw [hent]
    exact pass2Loop_length p.intermediateFile p.symbolTable none
  · intro i
    rw [hent]
    exact pass2Loop_lines p.intermediateFile p.symbolTable none i

end SicXe
